import Mathlib

/-!
Verification of the `chinese-numerals` crate (conversion of signed integers
to Chinese numeral text in four scales, two variants and two registers).

The Rust source is shallowly embedded: `u64`/`u128` magnitudes and `BigUint`
magnitudes become `Nat`, signed primitives and `BigInt` become `Int`,
`Vec<NumChar>` becomes `List NumChar` (push = append on the right), and the
`String` produced by the rendering trait methods becomes a Lean `String`.
The four `to_chars` loops in `shortscale.rs`, `myriadscale.rs`, `midscale.rs`
and `longscale.rs` are textually identical up to their constants, so they are
embedded as instances of one parametrized loop `linearLoop`, each instance
carrying exactly the constants of its source file.
-/

set_option maxRecDepth 16000

namespace ChineseNumerals

/-- The 25 numeral symbols of `characters.rs` (`enum NumChar`). -/
inductive NumChar where
  | Zero | One | Two | Three | Four | Five | Six | Seven | Eight | Nine
  | Shi | Bai | Qian | Wan | Yi | Zhao | Jing | Gai | Zi | Rang
  | Gou | Jian | Zheng | Zai | Neg
deriving DecidableEq

/-- The sign of the number (`enum Sign` in `lib.rs`). -/
inductive Sign where
  | Neg | Nil | Pos
deriving DecidableEq

/-- Chinese variants (`enum Variant` in `lib.rs`). -/
inductive Variant where
  | Simplified | Traditional
deriving DecidableEq

/-- The constant array `NUM_CHARS` of `characters.rs`. -/
def NUM_CHARS : List NumChar :=
  [NumChar.Zero, NumChar.One, NumChar.Two, NumChar.Three, NumChar.Four,
   NumChar.Five, NumChar.Six, NumChar.Seven, NumChar.Eight, NumChar.Nine,
   NumChar.Shi, NumChar.Bai, NumChar.Qian, NumChar.Wan, NumChar.Yi,
   NumChar.Zhao, NumChar.Jing, NumChar.Gai, NumChar.Zi, NumChar.Rang,
   NumChar.Gou, NumChar.Jian, NumChar.Zheng, NumChar.Zai, NumChar.Neg]

/-- Indexing `NUM_CHARS[i]`; every index used by the source is in bounds. -/
def numCharAt (i : Nat) : NumChar :=
  NUM_CHARS.getD i NumChar.Zero

/-- `NumChar::to_lowercase_simp` of `characters.rs`. -/
def NumChar.toLowercaseSimp : NumChar → Char
  | NumChar.Zero => '零'
  | NumChar.One => '一'
  | NumChar.Two => '二'
  | NumChar.Three => '三'
  | NumChar.Four => '四'
  | NumChar.Five => '五'
  | NumChar.Six => '六'
  | NumChar.Seven => '七'
  | NumChar.Eight => '八'
  | NumChar.Nine => '九'
  | NumChar.Shi => '十'
  | NumChar.Bai => '百'
  | NumChar.Qian => '千'
  | NumChar.Wan => '万'
  | NumChar.Yi => '亿'
  | NumChar.Zhao => '兆'
  | NumChar.Jing => '京'
  | NumChar.Gai => '垓'
  | NumChar.Zi => '秭'
  | NumChar.Rang => '穰'
  | NumChar.Gou => '沟'
  | NumChar.Jian => '涧'
  | NumChar.Zheng => '正'
  | NumChar.Zai => '载'
  | NumChar.Neg => '负'

/-- `NumChar::to_uppercase_simp` of `characters.rs`. -/
def NumChar.toUppercaseSimp : NumChar → Char
  | NumChar.One => '壹'
  | NumChar.Two => '贰'
  | NumChar.Three => '叁'
  | NumChar.Four => '肆'
  | NumChar.Five => '伍'
  | NumChar.Six => '陆'
  | NumChar.Seven => '柒'
  | NumChar.Eight => '捌'
  | NumChar.Nine => '玖'
  | NumChar.Shi => '拾'
  | NumChar.Bai => '佰'
  | NumChar.Qian => '仟'
  | NumChar.Wan => '万'
  | c => c.toLowercaseSimp

/-- `NumChar::to_lowercase_trad` of `characters.rs`. -/
def NumChar.toLowercaseTrad : NumChar → Char
  | NumChar.Wan => '萬'
  | NumChar.Yi => '億'
  | NumChar.Zhao => '兆'
  | NumChar.Gou => '溝'
  | NumChar.Jian => '澗'
  | NumChar.Zai => '載'
  | NumChar.Neg => '負'
  | c => c.toLowercaseSimp

/-- `NumChar::to_uppercase_trad` of `characters.rs` (note: its default arm
falls back to `to_lowercase_trad`, not to `to_uppercase_simp`). -/
def NumChar.toUppercaseTrad : NumChar → Char
  | NumChar.Two => '貳'
  | NumChar.Three => '叄'
  | NumChar.Six => '陸'
  | c => c.toLowercaseTrad

/-- The shared shape of the four `to_chars` loops (`shortscale.rs` 29-50,
`myriadscale.rs` 36-60, `midscale.rs` 29-53, `longscale.rs` 26-50).  Each
iteration takes `rem = num % base`, divides `num` by `base`, and when `rem`
is nonzero pushes the filler `Zero` (when the vector is nonempty and the
previous remainder was below `thresh`), the marker `NUM_CHARS[exp]` (when
`exp > startExp`) and the group's interior rendering. -/
def linearLoop (base thresh startExp : Nat) (interior : Nat → List NumChar) :
    List Nat → Nat → Nat → List NumChar → List NumChar
  | [], _num, _prev_rem, chars => chars
  | exp :: exps, num, prev_rem, chars =>
    let rem := num % base
    let chars2 :=
      if rem > 0 then
        ((if chars ≠ [] ∧ prev_rem < thresh then chars ++ [NumChar.Zero] else chars)
          ++ (if exp > startExp then [numCharAt exp] else [])) ++ interior rem
      else chars
    linearLoop base thresh startExp interior exps (num / base) rem chars2

/-- `ShortScaleInt::to_chars` (`shortscale.rs` 29-50): digit groups of width
1, exponents 9 to 23, `prev_rem` initialized to 1, digit `NUM_CHARS[rem]`
as the group interior. -/
def shortToChars (num : Nat) : List NumChar :=
  linearLoop 10 1 9 (fun rem => [numCharAt rem]) (List.range' 9 15) num 1 []

/-- `MyriadScaleInt::to_chars` (`myriadscale.rs` 36-60): groups of width 4,
exponents 12 to 21, `prev_rem` initialized to 1000, interior rendered by
`ShortScaleInt::from(rem).to_chars()`. -/
def myriadToChars (num : Nat) : List NumChar :=
  linearLoop 10000 1000 12 shortToChars (List.range' 12 10) num 1000 []

/-- `MidScaleInt::to_chars` (`midscale.rs` 29-53): groups of width 8,
exponents 13 to 17, interior rendered by `MyriadScaleInt::from(rem).to_chars()`. -/
def midToChars (num : Nat) : List NumChar :=
  linearLoop (10 ^ 8) (10 ^ 7) 13 myriadToChars (List.range' 13 5) num (10 ^ 7) []

/-- `LongScaleInt::to_chars` (`longscale.rs` 26-50): groups of width 16,
exponents 14 to 16, interior rendered by `MidScaleInt::from(rem).to_chars()`. -/
def longToChars (num : Nat) : List NumChar :=
  linearLoop (10 ^ 16) (10 ^ 15) 14 midToChars (List.range' 14 3) num (10 ^ 15) []

/-- `MyriadScaleBigInt::to_chars` (`myriadscale.rs` 126-152): same loop as
`MyriadScaleInt` but over exponents 12 to 23. -/
def myriadBigToChars (num : Nat) : List NumChar :=
  linearLoop 10000 1000 12 shortToChars (List.range' 12 12) num 1000 []

/-- `MidScaleBigInt::to_chars` (`midscale.rs` 112-138): same loop as
`MidScaleInt` but over exponents 13 to 23. -/
def midBigToChars (num : Nat) : List NumChar :=
  linearLoop (10 ^ 8) (10 ^ 7) 13 myriadToChars (List.range' 13 11) num (10 ^ 7) []

/-- One pass of the `LongScaleBigInt::to_chars` loop (`longscale.rs`
227-266).  State: remaining exponents, `num`, `prev_rem`, `div`, `lim`, and
the output vector; after every iteration past the first, `prev_rem` is
rescaled by `div`, `div` is squared, and `lim` becomes the new `div / 10`.
Groups at exponents 16 and above are rendered by a recursive invocation of
the whole function (`Self::try_from(&rem).unwrap().to_chars()`), passed in
here as `recur`. -/
def longBigLoop (recur : Nat → List NumChar) :
    List Nat → Nat → Nat → Nat → Nat → List NumChar → List NumChar
  | [], _num, _prev_rem, _div, _lim, chars => chars
  | exp :: exps, num, prev_rem, div, lim, chars =>
    let rem := num % div
    let chars2 :=
      if rem > 0 then
        ((if chars ≠ [] ∧ prev_rem < lim then chars ++ [NumChar.Zero] else chars)
          ++ (if exp > 14 then [numCharAt exp] else []))
          ++ (if exp ≤ 15 then midToChars rem else recur rem)
      else chars
    longBigLoop recur exps (num / div) (if exp > 14 then rem * div else rem)
      (if exp > 14 then div * div else div) (if exp > 14 then div * div / 10 else lim) chars2

/-- `LongScaleBigInt::to_chars` with explicit recursion depth: each level
runs the loop over exponents 14 to 23 with `prev_rem = 10^15`,
`div = 10^16`, `lim = 10^15`.  Every nested invocation receives a remainder
of a division by the current divisor and restarts at `div = 10^16`, so the
recursion depth is at most the ten loop iterations and the fuel of 10
supplied by `longBigToChars` is never exhausted. -/
def longBigFuel : Nat → Nat → List NumChar
  | 0, _num => []
  | fuel + 1, num =>
    longBigLoop (longBigFuel fuel) (List.range' 14 10) num (10 ^ 15) (10 ^ 16) (10 ^ 15) []

/-- Entry point of `LongScaleBigInt::to_chars`. -/
def longBigToChars (num : Nat) : List NumChar :=
  longBigFuel 10 num

/-- One fuelled step of the reduction loop shared by every
`to_chars_trimmed` implementation (`while data >= 1_0000 { data /= 1_0000 }`),
parametrized by the divisor `b`.  The fuel only serves termination: `n`
steps always suffice, see `leadDivB_eq`. -/
def leadDivGo (b : Nat) : Nat → Nat → Nat
  | 0, n => n
  | fuel + 1, n => if b ≤ n then leadDivGo b fuel (n / b) else n

/-- The reduction loop of the `to_chars_trimmed` implementations: divide `n`
by `b` until the value is below `b`. -/
def leadDivB (b : Nat) (n : Nat) : Nat :=
  leadDivGo b n n

/-- `ShortScaleInt::to_chars_trimmed` (`shortscale.rs` 52-59): pop the last
symbol when the data itself lies in `[10, 19]`. -/
def shortToCharsTrimmed (data : Nat) : List NumChar :=
  let chars := shortToChars data
  if 10 ≤ data ∧ data ≤ 19 then chars.dropLast else chars

/-- `MyriadScaleInt::to_chars_trimmed` (`myriadscale.rs` 62-73): reduce the
data by repeated division by `10^4`, pop the last symbol when the leading
value lies in `[10, 19]`. -/
def myriadToCharsTrimmed (data : Nat) : List NumChar :=
  let chars := myriadToChars data
  if 10 ≤ leadDivB 10000 data ∧ leadDivB 10000 data ≤ 19 then chars.dropLast else chars

/-- `MidScaleInt::to_chars_trimmed` (`midscale.rs` 55-66); the reduction
divisor is `10^4`, exactly as in the myriad scale. -/
def midToCharsTrimmed (data : Nat) : List NumChar :=
  let chars := midToChars data
  if 10 ≤ leadDivB 10000 data ∧ leadDivB 10000 data ≤ 19 then chars.dropLast else chars

/-- `LongScaleInt::to_chars_trimmed` (`longscale.rs` 52-63); the reduction
divisor is again `10^4`. -/
def longToCharsTrimmed (data : Nat) : List NumChar :=
  let chars := longToChars data
  if 10 ≤ leadDivB 10000 data ∧ leadDivB 10000 data ≤ 19 then chars.dropLast else chars

/-- `MyriadScaleBigInt::to_chars_trimmed` (`myriadscale.rs` 154-168). -/
def myriadBigToCharsTrimmed (data : Nat) : List NumChar :=
  let chars := myriadBigToChars data
  if 10 ≤ leadDivB 10000 data ∧ leadDivB 10000 data ≤ 19 then chars.dropLast else chars

/-- `MidScaleBigInt::to_chars_trimmed` (`midscale.rs` 140-154). -/
def midBigToCharsTrimmed (data : Nat) : List NumChar :=
  let chars := midBigToChars data
  if 10 ≤ leadDivB 10000 data ∧ leadDivB 10000 data ≤ 19 then chars.dropLast else chars

/-- `LongScaleBigInt::to_chars_trimmed` (`longscale.rs` 268-282). -/
def longBigToCharsTrimmed (data : Nat) : List NumChar :=
  let chars := longBigToChars data
  if 10 ≤ leadDivB 10000 data ∧ leadDivB 10000 data ≤ 19 then chars.dropLast else chars

/-- Symbols appended for the sign by `ChineseNumeral::to_lowercase` /
`to_uppercase` (`lib.rs` 196-233): `Neg` pushes the negative marker, `Nil`
pushes `Zero`, `Pos` pushes nothing. -/
def signChars : Sign → List NumChar
  | Sign.Neg => [NumChar.Neg]
  | Sign.Nil => [NumChar.Zero]
  | Sign.Pos => []

/-- `chars.into_iter().rev().map(method).collect::<String>()` applied to the
symbol vector with the sign marker pushed (`lib.rs` 196-233). -/
def renderString (method : NumChar → Char) (sign : Sign) (chars : List NumChar) : String :=
  String.mk (((chars ++ signChars sign).reverse).map method)

/-- The character table selected by `to_lowercase` for a variant. -/
def lowerMethod : Variant → (NumChar → Char)
  | Variant.Simplified => NumChar.toLowercaseSimp
  | Variant.Traditional => NumChar.toLowercaseTrad

/-- The character table selected by `to_uppercase` for a variant. -/
def upperMethod : Variant → (NumChar → Char)
  | Variant.Simplified => NumChar.toUppercaseSimp
  | Variant.Traditional => NumChar.toUppercaseTrad

/-- `struct ShortScaleInt` (`shortscale.rs`): sign and `data : u64`. -/
structure ShortScaleInt where
  sign : Sign
  data : Nat
deriving DecidableEq

/-- `struct MyriadScaleInt` (`myriadscale.rs`): sign and `data : u128`. -/
structure MyriadScaleInt where
  sign : Sign
  data : Nat
deriving DecidableEq

/-- `struct MidScaleInt` (`midscale.rs`). -/
structure MidScaleInt where
  sign : Sign
  data : Nat
deriving DecidableEq

/-- `struct LongScaleInt` (`longscale.rs`). -/
structure LongScaleInt where
  sign : Sign
  data : Nat
deriving DecidableEq

/-- `struct MyriadScaleBigInt` (`myriadscale.rs`). -/
structure MyriadScaleBigInt where
  sign : Sign
  data : Nat
deriving DecidableEq

/-- `struct MidScaleBigInt` (`midscale.rs`). -/
structure MidScaleBigInt where
  sign : Sign
  data : Nat
deriving DecidableEq

/-- `struct LongScaleBigInt` (`longscale.rs`). -/
structure LongScaleBigInt where
  sign : Sign
  data : Nat
deriving DecidableEq

/-- `ChineseNumeral::to_lowercase` for `ShortScaleInt` (`lib.rs` 196-208):
renders `to_chars_trimmed` through the lowercase table of the variant. -/
def ShortScaleInt.toLowercase (v : ShortScaleInt) (variant : Variant) : String :=
  renderString (lowerMethod variant) v.sign (shortToCharsTrimmed v.data)

/-- `ChineseNumeral::to_uppercase` for `ShortScaleInt` (`lib.rs` 221-233):
renders the untrimmed `to_chars` through the uppercase table. -/
def ShortScaleInt.toUppercase (v : ShortScaleInt) (variant : Variant) : String :=
  renderString (upperMethod variant) v.sign (shortToChars v.data)

/-- `to_lowercase` for `MyriadScaleInt`. -/
def MyriadScaleInt.toLowercase (v : MyriadScaleInt) (variant : Variant) : String :=
  renderString (lowerMethod variant) v.sign (myriadToCharsTrimmed v.data)

/-- `to_uppercase` for `MyriadScaleInt`. -/
def MyriadScaleInt.toUppercase (v : MyriadScaleInt) (variant : Variant) : String :=
  renderString (upperMethod variant) v.sign (myriadToChars v.data)

/-- `to_lowercase` for `MidScaleInt`. -/
def MidScaleInt.toLowercase (v : MidScaleInt) (variant : Variant) : String :=
  renderString (lowerMethod variant) v.sign (midToCharsTrimmed v.data)

/-- `to_uppercase` for `MidScaleInt`. -/
def MidScaleInt.toUppercase (v : MidScaleInt) (variant : Variant) : String :=
  renderString (upperMethod variant) v.sign (midToChars v.data)

/-- `to_lowercase` for `LongScaleInt`. -/
def LongScaleInt.toLowercase (v : LongScaleInt) (variant : Variant) : String :=
  renderString (lowerMethod variant) v.sign (longToCharsTrimmed v.data)

/-- `to_uppercase` for `LongScaleInt`. -/
def LongScaleInt.toUppercase (v : LongScaleInt) (variant : Variant) : String :=
  renderString (upperMethod variant) v.sign (longToChars v.data)

/-- `to_lowercase` for `MyriadScaleBigInt`. -/
def MyriadScaleBigInt.toLowercase (v : MyriadScaleBigInt) (variant : Variant) : String :=
  renderString (lowerMethod variant) v.sign (myriadBigToCharsTrimmed v.data)

/-- `to_uppercase` for `MyriadScaleBigInt`. -/
def MyriadScaleBigInt.toUppercase (v : MyriadScaleBigInt) (variant : Variant) : String :=
  renderString (upperMethod variant) v.sign (myriadBigToChars v.data)

/-- `to_lowercase` for `MidScaleBigInt`. -/
def MidScaleBigInt.toLowercase (v : MidScaleBigInt) (variant : Variant) : String :=
  renderString (lowerMethod variant) v.sign (midBigToCharsTrimmed v.data)

/-- `to_uppercase` for `MidScaleBigInt`. -/
def MidScaleBigInt.toUppercase (v : MidScaleBigInt) (variant : Variant) : String :=
  renderString (upperMethod variant) v.sign (midBigToChars v.data)

/-- `to_lowercase` for `LongScaleBigInt`. -/
def LongScaleBigInt.toLowercase (v : LongScaleBigInt) (variant : Variant) : String :=
  renderString (lowerMethod variant) v.sign (longBigToCharsTrimmed v.data)

/-- `to_uppercase` for `LongScaleBigInt`. -/
def LongScaleBigInt.toUppercase (v : LongScaleBigInt) (variant : Variant) : String :=
  renderString (upperMethod variant) v.sign (longBigToChars v.data)

/-- `MyriadScaleInt::new` (`myriadscale.rs` 16-22). -/
def MyriadScaleInt.new (sign : Sign) (data : Nat) : MyriadScaleInt :=
  if data = 0 then ⟨Sign.Nil, 0⟩ else ⟨sign, data⟩

/-- `LongScaleInt::new` (`longscale.rs` 16-22). -/
def LongScaleInt.new (sign : Sign) (data : Nat) : LongScaleInt :=
  if data = 0 then ⟨Sign.Nil, 0⟩ else ⟨sign, data⟩

/-- `MidScaleInt::new_non_pos` (`midscale.rs` 16-25). -/
def MidScaleInt.new_non_pos (abs : Nat) : MidScaleInt :=
  if abs = 0 then ⟨Sign.Nil, 0⟩ else ⟨Sign.Neg, abs⟩

/-- `ShortScaleInt::MAX_ABS` (`shortscale.rs` 13). -/
def SHORT_MAX_ABS : Nat := 999999999999999

/-- The out-of-range error type (`enum Error` in `lib.rs`), carrying the
offending absolute value. -/
inductive Error where
  | ShortScaleOutOfRange : Nat → Error
  | MyriadScaleOutOfRange : Nat → Error
  | MidScaleOutOfRange : Nat → Error
  | LongScaleOutOfRange : Nat → Error
deriving DecidableEq

/-- The sign/data pair produced by the `From<$pre>` implementations for
signed primitives (`impl_from_int` in `macros.rs` 110-140), parametrized by
the primitive type's minimum value `preMin`.  The special case for
`<$pre>::MIN` computes `(<$pre>::MAX as $data) + 1` to avoid the overflow of
`value.abs()`. -/
def fromIntSignData (preMin : Int) (value : Int) : Sign × Nat :=
  if value = 0 then (Sign.Nil, 0)
  else if value < 0 then
    (Sign.Neg, if value = preMin then (-(preMin + 1)).toNat + 1 else value.natAbs)
  else (Sign.Pos, value.toNat)

/-- The sign/data pair produced by the `From<$pre>` implementations for
unsigned primitives (`impl_from_uint` in `macros.rs` 142-162). -/
def fromUintSignData (value : Nat) : Sign × Nat :=
  if value = 0 then (Sign.Nil, 0) else (Sign.Pos, value)

/-- `From<$i>` for `MyriadScaleInt` (`impl_from_int!`). -/
def MyriadScaleInt.fromInt (preMin value : Int) : MyriadScaleInt :=
  ⟨(fromIntSignData preMin value).1, (fromIntSignData preMin value).2⟩

/-- `From<$u>` for `MyriadScaleInt` (`impl_from_uint!`). -/
def MyriadScaleInt.fromUint (value : Nat) : MyriadScaleInt :=
  ⟨(fromUintSignData value).1, (fromUintSignData value).2⟩

/-- `From<$i>` for `MidScaleInt`. -/
def MidScaleInt.fromInt (preMin value : Int) : MidScaleInt :=
  ⟨(fromIntSignData preMin value).1, (fromIntSignData preMin value).2⟩

/-- `From<$u>` for `MidScaleInt`. -/
def MidScaleInt.fromUint (value : Nat) : MidScaleInt :=
  ⟨(fromUintSignData value).1, (fromUintSignData value).2⟩

/-- `From<$i>` for `LongScaleInt`. -/
def LongScaleInt.fromInt (preMin value : Int) : LongScaleInt :=
  ⟨(fromIntSignData preMin value).1, (fromIntSignData preMin value).2⟩

/-- `From<$u>` for `LongScaleInt`. -/
def LongScaleInt.fromUint (value : Nat) : LongScaleInt :=
  ⟨(fromUintSignData value).1, (fromUintSignData value).2⟩

/-- `From<$i>` for `ShortScaleInt` (`i8`, `i16`, `i32`). -/
def ShortScaleInt.fromInt (preMin value : Int) : ShortScaleInt :=
  ⟨(fromIntSignData preMin value).1, (fromIntSignData preMin value).2⟩

/-- `From<$u>` for `ShortScaleInt` (`u8`, `u16`, `u32`). -/
def ShortScaleInt.fromUint (value : Nat) : ShortScaleInt :=
  ⟨(fromUintSignData value).1, (fromUintSignData value).2⟩

/-- `TryFrom<$u> for ShortScaleInt` (`impl_try_from_uint` in `macros.rs`
52-74, for `u64`, `u128`, `usize`). -/
def ShortScaleInt.tryFromUint (value : Nat) : Except Error ShortScaleInt :=
  if value = 0 then Except.ok ⟨Sign.Nil, 0⟩
  else if value ≤ SHORT_MAX_ABS then Except.ok ⟨Sign.Pos, value⟩
  else Except.error (Error.ShortScaleOutOfRange value)

/-- `TryFrom<$i> for ShortScaleInt` (`impl_try_from_int` in `macros.rs`
76-108, for `i64`, `i128`, `isize`).  The out-of-range arm computes the
absolute value as `(i128::MAX as u128) + 1` when `value as i128` is
`i128::MIN` and as `value.abs() as u128` otherwise. -/
def ShortScaleInt.tryFromInt (value : Int) : Except Error ShortScaleInt :=
  if value < -(SHORT_MAX_ABS : Int) ∨ (SHORT_MAX_ABS : Int) < value then
    Except.error (Error.ShortScaleOutOfRange
      (if value = -(2 ^ 127) then 2 ^ 127 else value.natAbs))
  else if value < 0 then Except.ok ⟨Sign.Neg, value.natAbs⟩
  else if 0 < value then Except.ok ⟨Sign.Pos, value.toNat⟩
  else Except.ok ⟨Sign.Nil, 0⟩

/-- `BigUint::from_slice`: little-endian base-`2^32` limbs. -/
def biguintFromSlice (l : List Nat) : Nat :=
  l.foldr (fun limb acc => limb + acc * 2 ^ 32) 0

/-- `MyriadScaleBigInt::MAX_ABS_ARR` (`myriadscale.rs` 95). -/
def MYRIAD_BIG_MAX_ABS_ARR : List Nat :=
  [4294967295, 2134966271, 2523967787, 239310294, 2938735877]

/-- The maximum absolute value expressible in the myriad scale. -/
def MYRIAD_BIG_MAX_ABS : Nat := biguintFromSlice MYRIAD_BIG_MAX_ABS_ARR

/-- `MidScaleBigInt::MAX_ABS_ARR` (`midscale.rs` 88-91). -/
def MID_BIG_MAX_ABS_ARR : List Nat :=
  [4294967295, 4294967295, 2701131775, 807615852, 3882706566, 3057181734,
   745289159, 4056365773, 462339630, 20]

/-- The maximum absolute value expressible in the mid-scale. -/
def MID_BIG_MAX_ABS : Nat := biguintFromSlice MID_BIG_MAX_ABS_ARR

/-- `LongScaleBigInt::MAX_ABS_ARR` (`longscale.rs` 85-206). -/
def LONG_BIG_MAX_ABS_ARR : List Nat :=
  [4294967295, 4294967295, 4294967295, 4294967295, 4294967295, 4294967295,
   4294967295, 4294967295, 4294967295, 4294967295, 4294967295, 4294967295,
   4294967295, 4294967295, 4294967295, 4294967295, 4294967295, 4294967295,
   4294967295, 4294967295, 4294967295, 4294967295, 4294967295, 4294967295,
   4294967295, 4294967295, 4294967295, 4294967295, 4294967295, 4294967295,
   4294967295, 4294967295, 4294967295, 4294967295, 4294967295, 4294967295,
   4294967295, 4294967295, 4294967295, 4294967295, 4294967295, 4294967295,
   4294967295, 4294967295, 4294967295, 4294967295, 4294967295, 4294967295,
   4294967295, 4294967295, 4294967295, 4294967295, 4294967295, 4294967295,
   4294967295, 4294967295, 4294967295, 4294967295, 4294967295, 4294967295,
   4294967295, 4294967295, 4294967295, 4294967295, 4294967295, 4294967295,
   4294967295, 4294967295, 4294967295, 4294967295, 4294967295, 4294967295,
   4294967295, 4294967295, 4294967295, 4294967295, 4294967295, 4294967295,
   4294967295, 4294967295, 4294967295, 4294967295, 4294967295, 4294967295,
   4294967295, 4294967295, 4294967295, 4294967295, 4294967295, 4294967295,
   4294967295, 4294967295, 4294967295, 4294967295, 4294967295, 4294967295,
   4294967295, 4294967295, 4294967295, 4294967295, 4294967295, 4294967295,
   4294967295, 4294967295, 4294967295, 4294967295, 4294967295, 4294967295,
   4294967295, 4294967295, 4294967295, 4294967295, 4294967295, 4294967295,
   4294967295, 4294967295, 4294967295, 4294967295, 4294967295, 4294967295,
   4294967295, 4294967295, 4294967295, 4294967295, 4294967295, 4294967295,
   4294967295, 4294967295, 4294967295, 4294967295, 4294967295, 4294967295,
   4294967295, 4294967295, 4294967295, 4294967295, 4294967295, 4294967295,
   4294967295, 4294967295, 4294967295, 4294967295, 4294967295, 4294967295,
   4294967295, 4294967295, 4294967295, 4294967295, 4294967295, 4294967295,
   4294967295, 4294967295, 4294967295, 4294967295, 4294967295, 4294967295,
   4294967295, 4294967295, 4294967295, 4294967295, 4294967295, 4294967295,
   4294967295, 4294967295, 4294967295, 4294967295, 4294967295, 4294967295,
   4294967295, 4294967295, 4294967295, 4294967295, 4294967295, 4294967295,
   4294967295, 4294967295, 4294967295, 4294967295, 4294967295, 4294967295,
   4294967295, 4294967295, 4294967295, 4294967295, 4294967295, 4294967295,
   4294967295, 4294967295, 4294967295, 4294967295, 4294967295, 4294967295,
   4294967295, 4294967295, 4294967295, 4294967295, 4294967295, 4294967295,
   4294967295, 4294967295, 4294967295, 4294967295, 4294967295, 4294967295,
   4294967295, 4294967295, 4294967295, 4294967295, 4294967295, 4294967295,
   4294967295, 4294967295, 4294967295, 4294967295, 4294967295, 4294967295,
   4294967295, 4294967295, 4294967295, 4294967295, 4294967295, 4294967295,
   4294967295, 4294967295, 4294967295, 4294967295, 4294967295, 4294967295,
   4294967295, 4294967295, 4294967295, 4294967295, 4294967295, 4294967295,
   4294967295, 4294967295, 4294967295, 4294967295, 4294967295, 4294967295,
   4294967295, 4294967295, 4294967295, 4294967295, 4294967295, 4294967295,
   4294967295, 4294967295, 4294967295, 4294967295, 4294967295, 4294967295,
   4294967295, 4294967295, 4294967295, 4294967295, 1691320320, 2671006246,
   1682531301, 2072858707, 1240508969, 3108358191, 1125119096, 2470144952,
   1610099978, 1690632660, 1941696884, 2663506355, 1006364675, 3909158537,
   4147711374, 1072663936, 4078768933, 745751659, 4123687570, 471458681,
   655028926, 4113407388, 3945524552, 985625313, 1254424514, 2127508744,
   570530434, 945388122, 3194649404, 2589065070, 2731705399, 202030749,
   2090780394, 3348662271, 1481754777, 1130635472, 4025144705, 1924486271,
   2578567861, 125491448, 1558036315, 994248173, 3817216711, 763950077,
   1030439870, 959586474, 3845661701, 483795093, 1637944470, 2275463649,
   3398804829, 1758016486, 2665513698, 2004912571, 1094885097, 4223064276,
   3307819021, 651121777, 1757003305, 3603542336, 129917786, 2215974994,
   3042386306, 2205352757, 3944939700, 3710987569, 97967515, 1217242524,
   930630949, 3660328512, 1787663098, 1784141600, 2500542892, 4034561586,
   3444961378, 785043562, 3869499367, 885623728, 2625011087, 3053789617,
   1965731793, 3900511934, 2648823592, 3851062028, 3321968688, 799195417,
   1011847510, 1369129160, 1348009103, 2876796955, 2915408967, 3305284948,
   263399535, 1715990604, 2645821294, 1587844552, 2624912049, 3035631499,
   2306636348, 3499275462, 675152704, 854794152, 4004972748, 1739996642,
   1333476491, 4012621867, 3658792931, 3297985728, 2864481726, 3066357406,
   785287846, 1671499798, 433044045, 1919608025, 264833858, 3999983367,
   1116778570, 1301982149, 4213901070, 4081649357, 536169226, 1389008649,
   188923873, 373495152, 2551132278, 1800758715, 3951840330, 2632334454,
   3118778225, 1034046547, 1862428410, 3037609062, 1994608505, 29051798,
   2571685694, 264151332, 2260643090, 2717535964, 3508441116, 3283713017,
   1903365635, 923575694, 1219598101, 2288281570, 3676533911, 1014136356,
   555142354, 2389170030, 4185108175, 884862419, 836141292, 2957159173,
   1997444768, 4233903127, 2876184692, 3089125070, 1480848293, 1097600237,
   299700527, 2507669891, 2982628312, 2114881043, 2529576251, 2812279824,
   2987750993, 4241938954, 2204775591, 1037094060, 829315638, 1231047149,
   52608178, 3735136637, 3455232602, 962039123, 488286513, 50685385,
   3516451821, 843975207, 1572355722, 675489076, 2428445672, 1555117248,
   3708476086, 10375249, 4172112346, 2117510871, 2227658327, 3187664554,
   3050656558, 328034318, 3179601324, 1247769761, 3439263953, 1431538938,
   2962525068, 1213366289, 3813013550, 2651093719, 1860661503, 3933716208,
   264320617, 789980519, 2257856172, 102000748, 977269860, 1113845122,
   3008928583, 1461738106, 557786285, 2926560363, 1038106190, 3643478847,
   828004507, 457818698, 1933056971, 373408056, 2076808229, 3160935130,
   2781854874, 2519636100, 177606000, 4237103862, 3977834316, 1621936232,
   2599050516, 319893558, 3343370366, 765044144, 976657331, 7026264,
   294277429, 3829376742, 3029627280, 2705178718, 3614653880, 230519152,
   3288033233, 293525479, 3805751881, 3227511198, 2520308544, 3648103003,
   1111086184, 437622105, 2232033852, 3239146386, 584244184, 1450926016,
   2462430443, 3226534010, 298582169, 4214576928, 1762099469, 964985185,
   1585788148, 1641127666, 787006566, 2315956284, 3258232694, 2275058964,
   2541003317, 1508235863, 2613339827, 4080647514, 1152057965, 3149266279,
   731345410, 914737650, 65395712, 1884566942, 1379520432, 2611027720,
   4163073378, 2619704967, 2746552541, 1388822415, 3005141199, 843440249,
   4288674003, 3136174279, 4051522914, 4144149433, 3427566947, 3419023197,
   3758479825, 3893877676, 96899594, 1657725776, 253618880, 434129337,
   1499045748, 2996992534, 4036042074, 2110713869, 906222950, 928326225,
   2541827893, 1604330202, 226792470, 4022228930, 815850898, 1466012310,
   3377712199, 292769859, 2822055597, 3225701344, 3052947004, 385831222,
   705324593, 4030158636, 3540280538, 2982120874, 2136414455, 255762046,
   3852783591, 3262064164, 2358991588, 3756586117, 4143612643, 3326743817,
   2897365738, 807711264, 3719310016, 3721264861, 3627337076, 944539331,
   3640975513, 3712525681, 1162911839, 2008243316, 2179489649, 2867584109,
   261861553, 3570253908, 2062868357, 2220328623, 3857004679, 3744109002,
   4138041873, 1451860932, 2364975637, 2802161722, 2680106834, 753401584,
   1223182946, 1245401957, 4163377735, 3565815922, 2216942838, 4036140094,
   71979081, 3924559643, 400477238, 551750683, 1174153235, 859969898,
   1185921017, 1711399735, 812991545, 4051735761, 3549118738, 1631653329,
   3631835958, 3648867800, 1206500363, 2155893137, 361030362, 3454286017,
   2505909489, 1083595169, 453595313, 1510564703, 1706163902, 1632924345,
   1381875722, 1661526119, 1082778324, 3571910052, 1140625929, 851544870,
   1145546234, 2938573139, 907528924, 1304752338, 1764668294, 1788942063,
   1700368828, 104979467, 1413911959, 3327497828, 1956384744, 1272712474,
   2815637534, 3307809377, 1320574940, 1111968962, 4073107827, 434096622,
   169451929, 3201183459, 3331028877, 2852366972, 3369830128, 2924794558,
   3106537952, 3739481231, 1612955817, 4138608722, 2721281595, 2755775390,
   843505117, 982234295, 1157276611, 814674632, 4246504726, 3532006708,
   992340967, 1647538031, 204696133, 193866982, 3899126129, 300851698,
   1379496684, 1759463683, 1354782756, 1374637239, 3410883240, 1073406229,
   3038431791, 1053909855, 3607043270, 173719711, 3733903830, 171820911,
   1573050589, 932781534, 4183534770, 2158849555, 372245998, 3573073830,
   841339264, 2759200520, 1610547277, 2603293319, 3890906486, 1557138278,
   3964109906, 677238797, 537994297, 1124184993, 4287078344, 4207654540,
   2943022776, 2977947524, 3255359985, 4098397558, 2274666217, 2915862060,
   243524940, 2467726756, 2869020032, 507521339, 3403121914, 522051455,
   1803903108, 3471254194, 473535371, 1948602036, 3352095732, 3116527002,
   1795743673, 775867940, 2551469548, 3757442064, 3162525227, 3765412747,
   3040105484, 1927625810, 48214767, 2997207130, 1342349989, 2536583992,
   1501320191, 3592287317, 887432730, 967585477, 3334212779, 948663609,
   1064513472, 15386372, 2465931737, 3230242590, 3036652803, 2063155087,
   1927500726, 2821790499, 2187774383, 501520074, 3688568496, 3606711121,
   2576459247, 3176542345, 378322447, 156541411, 1400607301, 1406179107,
   677848877, 2253753529, 193196070, 4207435024, 4166396241, 509467541,
   2906024136, 1221753746, 3375413222, 431327897, 2749265123, 2848827671,
   3412997614, 2051920238, 1283516885, 1300498239, 1957256104, 2634010560,
   3531900395, 360276850, 1461184973, 2012063967, 2873572430, 2914608609,
   4289554777, 1539331673, 1859532928, 4213441063, 538215691, 3512720863,
   4258743698, 3040408445, 982396546, 343095663, 4138069496, 1021581857,
   214185242, 1968079460, 2864275059, 3347192726, 4096783459, 3259169450,
   3707808869, 142485006, 399610869, 230556456, 2219467721, 4191227798,
   2242548189, 3136366572, 179755707, 3464881829, 452317775, 3887426070,
   3446430233, 1473370015, 1576807208, 3964523248, 419325089, 2373067114,
   1596072055, 1928415752, 3635452689, 1005598891, 3335462724, 3290848636,
   3669078247, 1178176812, 2110774376, 3068593619, 1253036518, 908857731,
   3631223047, 4138506423, 2903592318, 3596915748, 3289036113, 3721512676,
   2704409359, 3386016968, 3676268074, 2185259502, 1096257611, 3360076717,
   3548676554, 170167319, 3360064287, 3899940843, 9640]

/-- The maximum absolute value expressible in the long scale. -/
def LONG_BIG_MAX_ABS : Nat := biguintFromSlice LONG_BIG_MAX_ABS_ARR

/-- `TryFrom<&BigUint> for MyriadScaleBigInt` (`impl_try_from_big` in
`macros.rs` 164-236). -/
def MyriadScaleBigInt.tryFromBigUint (value : Nat) : Except Error MyriadScaleBigInt :=
  if value = 0 then Except.ok ⟨Sign.Nil, 0⟩
  else if value ≤ MYRIAD_BIG_MAX_ABS then Except.ok ⟨Sign.Pos, value⟩
  else Except.error (Error.MyriadScaleOutOfRange value)

/-- `TryFrom<&BigInt> for MyriadScaleBigInt` (`impl_try_from_big`). -/
def MyriadScaleBigInt.tryFromBigInt (value : Int) : Except Error MyriadScaleBigInt :=
  if value < -(MYRIAD_BIG_MAX_ABS : Int) ∨ (MYRIAD_BIG_MAX_ABS : Int) < value then
    Except.error (Error.MyriadScaleOutOfRange value.natAbs)
  else if value = 0 then Except.ok ⟨Sign.Nil, 0⟩
  else if value < 0 then Except.ok ⟨Sign.Neg, value.natAbs⟩
  else Except.ok ⟨Sign.Pos, value.toNat⟩

/-- `TryFrom<&BigUint> for MidScaleBigInt`. -/
def MidScaleBigInt.tryFromBigUint (value : Nat) : Except Error MidScaleBigInt :=
  if value = 0 then Except.ok ⟨Sign.Nil, 0⟩
  else if value ≤ MID_BIG_MAX_ABS then Except.ok ⟨Sign.Pos, value⟩
  else Except.error (Error.MidScaleOutOfRange value)

/-- `TryFrom<&BigInt> for MidScaleBigInt`. -/
def MidScaleBigInt.tryFromBigInt (value : Int) : Except Error MidScaleBigInt :=
  if value < -(MID_BIG_MAX_ABS : Int) ∨ (MID_BIG_MAX_ABS : Int) < value then
    Except.error (Error.MidScaleOutOfRange value.natAbs)
  else if value = 0 then Except.ok ⟨Sign.Nil, 0⟩
  else if value < 0 then Except.ok ⟨Sign.Neg, value.natAbs⟩
  else Except.ok ⟨Sign.Pos, value.toNat⟩

/-- `TryFrom<&BigUint> for LongScaleBigInt`. -/
def LongScaleBigInt.tryFromBigUint (value : Nat) : Except Error LongScaleBigInt :=
  if value = 0 then Except.ok ⟨Sign.Nil, 0⟩
  else if value ≤ LONG_BIG_MAX_ABS then Except.ok ⟨Sign.Pos, value⟩
  else Except.error (Error.LongScaleOutOfRange value)

/-- `TryFrom<&BigInt> for LongScaleBigInt`. -/
def LongScaleBigInt.tryFromBigInt (value : Int) : Except Error LongScaleBigInt :=
  if value < -(LONG_BIG_MAX_ABS : Int) ∨ (LONG_BIG_MAX_ABS : Int) < value then
    Except.error (Error.LongScaleOutOfRange value.natAbs)
  else if value = 0 then Except.ok ⟨Sign.Nil, 0⟩
  else if value < 0 then Except.ok ⟨Sign.Neg, value.natAbs⟩
  else Except.ok ⟨Sign.Pos, value.toNat⟩

/-- Modelled from the spec (§4.3, the shared linear-engine algorithm): the
symbols emitted while processing the given group exponents from least to
most significant.  For each group, when its remainder is nonzero: one filler
`Zero` is emitted precisely when some lower group has already produced
output (tracked by `started`) and the immediately lower group's remainder
was strictly below the full-width threshold `thresh = 10^(width-1)`; then
the group marker (omitted for group 0), then the group's interior.  This is
the specification-side counterpart of `linearLoop` for the refinement proof
of claim C1. -/
def specEmit (base thresh startExp : Nat) (interior : Nat → List NumChar) :
    List Nat → Nat → Nat → Bool → List NumChar
  | [], _num, _prev_rem, _started => []
  | exp :: exps, num, prev_rem, started =>
    let rem := num % base
    (if rem > 0 then
      ((if started ∧ prev_rem < thresh then [NumChar.Zero] else [])
        ++ (if exp > startExp then [numCharAt exp] else [])) ++ interior rem
     else [])
      ++ specEmit base thresh startExp interior exps (num / base) rem
          (started || decide (rem > 0))

/-- No two adjacent `Zero` symbols occur in the list. -/
def NoAdjZero (l : List NumChar) : Prop :=
  List.Chain' (fun a b => a ≠ NumChar.Zero ∨ b ≠ NumChar.Zero) l

/-- The shape invariant of the symbol sequences produced for nonzero
magnitudes: nonempty, starting and ending with a symbol other than `Zero`,
and containing no two adjacent `Zero` symbols. -/
def GoodChars (l : List NumChar) : Prop :=
  l ≠ [] ∧ l.head? ≠ some NumChar.Zero ∧ l.getLast? ≠ some NumChar.Zero ∧ NoAdjZero l

/-- The corresponding invariant on rendered character lists: the text does
not start with, end with, or contain two adjacent copies of the zero
character `零`. -/
def TextZeroSafe (l : List Char) : Prop :=
  l.head? ≠ some '零' ∧ l.getLast? ≠ some '零' ∧
    List.Chain' (fun a b => a ≠ '零' ∨ b ≠ '零') l

instance instDecEqExcept {ε α : Type} [DecidableEq ε] [DecidableEq α] :
    DecidableEq (Except ε α)
  | Except.error e, Except.error f =>
    match decEq e f with
    | isTrue h => isTrue (congrArg Except.error h)
    | isFalse h => isFalse fun hc => h (Except.error.inj hc)
  | Except.error _, Except.ok _ => isFalse fun hc => Except.noConfusion hc
  | Except.ok _, Except.error _ => isFalse fun hc => Except.noConfusion hc
  | Except.ok a, Except.ok b =>
    match decEq a b with
    | isTrue h => isTrue (congrArg Except.ok h)
    | isFalse h => isFalse fun hc => h (Except.ok.inj hc)

instance instDecNoAdjZero : (l : List NumChar) → Decidable (NoAdjZero l)
  | [] => isTrue List.chain'_nil
  | [a] => isTrue (List.chain'_singleton a)
  | a :: b :: t =>
    match inferInstanceAs (Decidable (a ≠ NumChar.Zero ∨ b ≠ NumChar.Zero)),
        instDecNoAdjZero (b :: t) with
    | isTrue h1, isTrue h2 => isTrue (List.chain'_cons.mpr ⟨h1, h2⟩)
    | isFalse h1, _ => isFalse (fun hc => h1 (List.chain'_cons.mp hc).1)
    | _, isFalse h2 => isFalse (fun hc => h2 (List.chain'_cons.mp hc).2)

instance (l : List NumChar) : Decidable (GoodChars l) :=
  inferInstanceAs (Decidable (_ ∧ _ ∧ _ ∧ _))

instance instDecCharChain : (l : List Char) → Decidable (List.Chain' (fun a b => a ≠ '零' ∨ b ≠ '零') l)
  | [] => isTrue List.chain'_nil
  | [a] => isTrue (List.chain'_singleton a)
  | a :: b :: t =>
    match inferInstanceAs (Decidable (a ≠ '零' ∨ b ≠ '零')), instDecCharChain (b :: t) with
    | isTrue h1, isTrue h2 => isTrue (List.chain'_cons.mpr ⟨h1, h2⟩)
    | isFalse h1, _ => isFalse (fun hc => h1 (List.chain'_cons.mp hc).1)
    | _, isFalse h2 => isFalse (fun hc => h2 (List.chain'_cons.mp hc).2)

instance (l : List Char) : Decidable (TextZeroSafe l) :=
  inferInstanceAs (Decidable (_ ∧ _ ∧ _))

/-! ### Lemmas about the trimming reduction loop -/

theorem leadDivGo_congr {b : Nat} (hb : 2 ≤ b) :
    ∀ n f g, n ≤ f → n ≤ g → leadDivGo b f n = leadDivGo b g n := by
  intro n
  induction n using Nat.strong_induction_on with
  | _ n ih =>
    intro f g hf hg
    match f, g with
    | 0, 0 => rfl
    | 0, g + 1 =>
      have hn : n = 0 := Nat.le_zero.mp hf
      subst hn
      simp [leadDivGo, Nat.not_le.mpr (by omega : (0 : Nat) < b)]
    | f + 1, 0 =>
      have hn : n = 0 := Nat.le_zero.mp hg
      subst hn
      simp [leadDivGo, Nat.not_le.mpr (by omega : (0 : Nat) < b)]
    | f + 1, g + 1 =>
      simp only [leadDivGo]
      by_cases h : b ≤ n
      · simp only [if_pos h]
        have hlt : n / b < n := Nat.div_lt_self (by omega) (by omega)
        exact ih (n / b) hlt f g (by omega) (by omega)
      · simp only [if_neg h]

theorem leadDivB_eq {b : Nat} (hb : 2 ≤ b) (n : Nat) :
    leadDivB b n = if b ≤ n then leadDivB b (n / b) else n := by
  by_cases h : b ≤ n
  · rw [if_pos h]
    obtain ⟨m, rfl⟩ : ∃ m, n = m + 1 := ⟨n - 1, by omega⟩
    show leadDivGo b (m + 1) (m + 1) = leadDivB b ((m + 1) / b)
    rw [leadDivGo, if_pos h]
    have hlt : (m + 1) / b < m + 1 := Nat.div_lt_self (by omega) (by omega)
    exact leadDivGo_congr hb ((m + 1) / b) m ((m + 1) / b) (by omega) le_rfl
  · rw [if_neg h]
    cases n with
    | zero => rfl
    | succ m =>
      show leadDivGo b (m + 1) (m + 1) = m + 1
      rw [leadDivGo, if_neg h]

theorem leadDivB_of_lt {b n : Nat} (hb : 2 ≤ b) (h : n < b) : leadDivB b n = n := by
  rw [leadDivB_eq hb, if_neg (by omega)]

theorem leadDivB_div {b n : Nat} (hb : 2 ≤ b) (h : b ≤ n) :
    leadDivB b n = leadDivB b (n / b) := by
  rw [leadDivB_eq hb, if_pos h]

theorem leadDivB_lt {b : Nat} (hb : 2 ≤ b) (n : Nat) : leadDivB b n < b := by
  induction n using Nat.strong_induction_on with
  | _ n ih =>
    by_cases h : b ≤ n
    · rw [leadDivB_div hb h]
      exact ih (n / b) (Nat.div_lt_self (by omega) (by omega))
    · rw [leadDivB_of_lt hb (by omega)]; omega

theorem leadDivB_pos {b : Nat} (hb : 2 ≤ b) :
    ∀ n, 0 < n → 0 < leadDivB b n := by
  intro n
  induction n using Nat.strong_induction_on with
  | _ n ih =>
    intro hn
    by_cases h : b ≤ n
    · rw [leadDivB_div hb h]
      exact ih (n / b) (Nat.div_lt_self (by omega) (by omega))
        (Nat.div_pos h (by omega))
    · rwa [leadDivB_of_lt hb (by omega)]

theorem leadDivB_div_pow {b : Nat} (hb : 2 ≤ b) :
    ∀ (k : Nat) (n : Nat), b ^ k ≤ n → leadDivB b (n / b ^ k) = leadDivB b n := by
  intro k
  induction k with
  | zero => intro n _; simp
  | succ k ih =>
    intro n hkn
    have hb1 : b ^ k ≤ n := le_trans (Nat.pow_le_pow_right (by omega) (by omega)) hkn
    have hdiv : b ≤ n / b ^ k := by
      rw [Nat.le_div_iff_mul_le (Nat.pos_pow_of_pos k (by omega))]
      calc b * b ^ k = b ^ (k + 1) := by ring
        _ ≤ n := hkn
    calc leadDivB b (n / b ^ (k + 1)) = leadDivB b (n / b ^ k / b) := by
          rw [Nat.div_div_eq_div_mul, ← pow_succ]
      _ = leadDivB b (n / b ^ k) := (leadDivB_div hb hdiv).symm
      _ = leadDivB b n := ih n hb1

theorem leadDivB_compose {b : Nat} (hb : 2 ≤ b) (k : Nat) (hk : 1 ≤ k) :
    ∀ n, leadDivB b (leadDivB (b ^ k) n) = leadDivB b n := by
  have hbk : 2 ≤ b ^ k := le_trans hb (Nat.le_self_pow (by omega) b)
  intro n
  induction n using Nat.strong_induction_on with
  | _ n ih =>
    by_cases h : b ^ k ≤ n
    · rw [leadDivB_div hbk h]
      have hlt : n / b ^ k < n := Nat.div_lt_self (by omega) (by omega)
      rw [ih (n / b ^ k) hlt]
      exact leadDivB_div_pow hb k n h
    · rw [leadDivB_of_lt hbk (by omega)]

/-! ### Lemmas about the shared linear loop -/

theorem linearLoop_zero (base thresh startExp : Nat) (interior : Nat → List NumChar) :
    ∀ exps prev_rem chars,
      linearLoop base thresh startExp interior exps 0 prev_rem chars = chars := by
  intro exps
  induction exps with
  | nil => intro prev_rem chars; rfl
  | cons e es ih =>
    intro prev_rem chars
    simp only [linearLoop, Nat.zero_mod, Nat.zero_div, Nat.lt_irrefl, if_false]
    exact ih 0 chars

theorem isEmpty_eq_false_of_ne_nil {α : Type} {l : List α} (h : l ≠ []) :
    l.isEmpty = false := by
  cases l with
  | nil => exact absurd rfl h
  | cons a t => rfl

theorem linearLoop_eq_specEmit (base thresh startExp : Nat) (interior : Nat → List NumChar)
    (hbase : 0 < base)
    (hint : ∀ r, 0 < r → r < base → interior r ≠ []) :
    ∀ exps num prev_rem chars,
      linearLoop base thresh startExp interior exps num prev_rem chars
        = chars ++ specEmit base thresh startExp interior exps num prev_rem (!chars.isEmpty) := by
  intro exps
  induction exps with
  | nil => intro num prev_rem chars; simp [linearLoop, specEmit]
  | cons e es ih =>
    intro num prev_rem chars
    by_cases hrem : num % base > 0
    · have hne : interior (num % base) ≠ [] := hint _ hrem (Nat.mod_lt _ hbase)
      have hne' : (interior (num % base)).isEmpty = false := by
        simpa [List.isEmpty_iff] using hne
      by_cases hch : chars = []
      · subst hch
        simp only [linearLoop, specEmit, ih]
        simp [hrem, hne']
        congr 1
        rw [isEmpty_eq_false_of_ne_nil (by simp [List.append_eq_nil, hne])]
        rfl
      · have hch' : chars.isEmpty = false := by simpa [List.isEmpty_iff] using hch
        by_cases hth : prev_rem < thresh
        · simp only [linearLoop, specEmit, ih]
          simp [hrem, hne', hch, hch', hth]
          congr 1
          rw [isEmpty_eq_false_of_ne_nil (by simp)]
          rfl
        · simp only [linearLoop, specEmit, ih]
          simp [hrem, hne', hch, hch', hth]
          congr 1
          rw [isEmpty_eq_false_of_ne_nil (by simp [List.append_eq_nil, hne, hch])]
          rfl
    · simp only [linearLoop, specEmit, ih]
      simp [hrem]

theorem numCharAt_ne_zero : ∀ e < 25, 1 ≤ e → numCharAt e ≠ NumChar.Zero := by decide

theorem linearLoop_suffix (base thresh startExp : Nat) (interior : Nat → List NumChar)
    (hbase : 2 ≤ base) :
    ∀ exps num prev_rem chars, 0 < num → num < base ^ exps.length →
      ∃ pre, linearLoop base thresh startExp interior exps num prev_rem chars
        = pre ++ interior (leadDivB base num) := by
  intro exps
  induction exps with
  | nil =>
    intro num prev_rem chars h0 hlt
    simp only [List.length_nil, pow_zero] at hlt
    omega
  | cons e es ih =>
    intro num prev_rem chars h0 hlt
    simp only [linearLoop]
    by_cases hq : num / base = 0
    · have hnb : num < base := by
        by_contra hge
        have h1 : 1 ≤ num / base := (Nat.one_le_div_iff (by omega)).mpr (by omega)
        omega
      rw [hq, linearLoop_zero]
      rw [Nat.mod_eq_of_lt hnb, if_pos h0, leadDivB_of_lt hbase hnb]
      exact ⟨_, rfl⟩
    · have h0' : 0 < num / base := Nat.pos_of_ne_zero hq
      have hge : base ≤ num := (Nat.one_le_div_iff (by omega)).mp h0'
      have hlt' : num / base < base ^ es.length := by
        apply Nat.div_lt_of_lt_mul
        simpa [List.length_cons, pow_succ, Nat.mul_comm] using hlt
      rw [leadDivB_div hbase hge]
      exact ih (num / base) (num % base) _ h0' hlt'

/-! ### The shape invariant of the emitted symbol sequences -/

theorem goodChars_singleton {m : NumChar} (hm : m ≠ NumChar.Zero) : GoodChars [m] := by
  refine ⟨by simp, by simp [hm], by simp [hm], ?_⟩
  simp [NoAdjZero]

theorem goodChars_cons_of_good {m : NumChar} {I : List NumChar}
    (hm : m ≠ NumChar.Zero) (hI : GoodChars I) : GoodChars ([m] ++ I) := by
  obtain ⟨hne, hh, hl, hc⟩ := hI
  refine ⟨by simp, ?_, ?_, ?_⟩
  · rw [List.head?_append_of_ne_nil _ (by simp)]
    simp [hm]
  · rw [List.getLast?_append_of_ne_nil _ hne]
    exact hl
  · rw [NoAdjZero, List.chain'_append]
    refine ⟨List.chain'_singleton m, hc, ?_⟩
    intro x hx y hy
    simp only [List.getLast?_singleton, Option.mem_def, Option.some.injEq] at hx
    subst hx
    exact Or.inl hm

theorem goodChars_emit_nil {M I : List NumChar} (hI : GoodChars I)
    (hM : M = [] ∨ ∃ m, M = [m] ∧ m ≠ NumChar.Zero) : GoodChars (M ++ I) := by
  rcases hM with rfl | ⟨m, rfl, hm⟩
  · simpa using hI
  · exact goodChars_cons_of_good hm hI

theorem goodChars_emit_cons {chars : List NumChar} {m : NumChar} {I : List NumChar}
    (hch : GoodChars chars) (hm : m ≠ NumChar.Zero) (hI : GoodChars I)
    (A : List NumChar) (hA : A = chars ∨ A = chars ++ [NumChar.Zero]) :
    GoodChars ((A ++ [m]) ++ I) := by
  obtain ⟨hne, hh, hl, hc⟩ := hch
  obtain ⟨hneI, hhI, hlI, hcI⟩ := hI
  have hAne : A ≠ [] := by
    rcases hA with rfl | rfl
    · exact hne
    · simp
  have hAh : A.head? = chars.head? := by
    rcases hA with rfl | rfl
    · rfl
    · exact List.head?_append_of_ne_nil _ hne
  have hAc : NoAdjZero A := by
    rcases hA with rfl | rfl
    · exact hc
    · rw [NoAdjZero, List.chain'_append]
      refine ⟨hc, List.chain'_singleton _, ?_⟩
      intro x hx y hy
      refine Or.inl ?_
      rintro rfl
      rw [Option.mem_def] at hx
      exact hl hx
  refine ⟨by simp, ?_, ?_, ?_⟩
  · rw [List.head?_append_of_ne_nil _ (by simp [hAne]), List.head?_append_of_ne_nil _ hAne, hAh]
    exact hh
  · rw [List.getLast?_append_of_ne_nil _ hneI]
    exact hlI
  · rw [NoAdjZero, List.chain'_append]
    refine ⟨?_, hcI, ?_⟩
    · rw [List.chain'_append]
      refine ⟨hAc, List.chain'_singleton _, ?_⟩
      intro x hx y hy
      simp only [List.head?_cons, Option.mem_def, Option.some.injEq] at hy
      subst hy
      exact Or.inr hm
    · intro x hx y hy
      rw [List.getLast?_append_of_ne_nil _ (by simp), List.getLast?_singleton] at hx
      rw [Option.mem_def, Option.some.injEq] at hx
      subst hx
      exact Or.inl hm

theorem linearLoop_good (base thresh startExp : Nat) (interior : Nat → List NumChar)
    (hbase : 2 ≤ base) (hstart : 1 ≤ startExp)
    (hint : ∀ r, 0 < r → r < base → GoodChars (interior r)) :
    ∀ (len s num prev_rem : Nat) (chars : List NumChar),
      startExp ≤ s → s + len ≤ 25 →
      (chars = [] ∨ (GoodChars chars ∧ startExp < s)) →
      num < base ^ len →
      (0 < num ∨ GoodChars chars) →
      GoodChars (linearLoop base thresh startExp interior (List.range' s len) num prev_rem chars) := by
  intro len
  induction len with
  | zero =>
    intro s num prev_rem chars hs hs25 hchars hlt hok
    have hnum : num = 0 := by simpa [Nat.lt_one_iff] using hlt
    rcases hok with h0 | hg
    · omega
    · simpa [List.range'_zero, linearLoop] using hg
  | succ len ih =>
    intro s num prev_rem chars hs hs25 hchars hlt hok
    rw [List.range'_succ]
    simp only [linearLoop]
    have hnum' : num / base < base ^ len := by
      apply Nat.div_lt_of_lt_mul
      simpa [pow_succ, Nat.mul_comm] using hlt
    by_cases hrem : num % base > 0
    · have hI : GoodChars (interior (num % base)) := hint _ hrem (Nat.mod_lt _ (by omega))
      rw [if_pos hrem]
      have hX : GoodChars
          (((if chars ≠ [] ∧ prev_rem < thresh then chars ++ [NumChar.Zero] else chars)
            ++ (if s > startExp then [numCharAt s] else [])) ++ interior (num % base)) := by
        rcases hchars with rfl | ⟨hg, hlt_s⟩
        · rw [if_neg (by simp)]
          simp only [List.nil_append]
          apply goodChars_emit_nil hI
          by_cases hsgt : s > startExp
          · rw [if_pos hsgt]
            exact Or.inr ⟨_, rfl, numCharAt_ne_zero s (by omega) (by omega)⟩
          · rw [if_neg hsgt]
            exact Or.inl rfl
        · rw [if_pos hlt_s]
          apply goodChars_emit_cons hg (numCharAt_ne_zero s (by omega) (by omega)) hI
          by_cases hth : chars ≠ [] ∧ prev_rem < thresh
          · rw [if_pos hth]; exact Or.inr rfl
          · rw [if_neg hth]; exact Or.inl rfl
      exact ih (s + 1) (num / base) (num % base) _ (by omega) (by omega)
        (Or.inr ⟨hX, by omega⟩) hnum' (Or.inr hX)
    · rw [if_neg hrem]
      rcases hchars with rfl | ⟨hg, hlt_s⟩
      · rcases hok with h0 | hg
        · have hge : base ≤ num := by
            by_contra hx
            rw [Nat.mod_eq_of_lt (by omega)] at hrem
            omega
          exact ih (s + 1) (num / base) (num % base) [] (by omega) (by omega)
            (Or.inl rfl) hnum'
            (Or.inl ((Nat.one_le_div_iff (by omega)).mpr hge))
        · exact absurd rfl hg.1
      · exact ih (s + 1) (num / base) (num % base) chars (by omega) (by omega)
          (Or.inr ⟨hg, by omega⟩) hnum' (Or.inr hg)

/-! ### Instantiation to the individual engines -/

theorem shortToChars_good {n : Nat} (h0 : 0 < n) (hlt : n < 10 ^ 15) :
    GoodChars (shortToChars n) := by
  show GoodChars (linearLoop 10 1 9 (fun rem => [numCharAt rem]) (List.range' 9 15) n 1 [])
  exact linearLoop_good 10 1 9 _ (by omega) (by omega)
    (fun r h1 h2 => goodChars_singleton (numCharAt_ne_zero r (by omega) (by omega)))
    15 9 n 1 [] (by omega) (by omega) (Or.inl rfl) (by simpa using hlt) (Or.inl h0)

theorem myriadToChars_good {n : Nat} (h0 : 0 < n) (hlt : n < 10 ^ 40) :
    GoodChars (myriadToChars n) := by
  have e1 : (10 : Nat) ^ 40 = 10000 ^ 10 := by norm_num
  show GoodChars (linearLoop 10000 1000 12 shortToChars (List.range' 12 10) n 1000 [])
  exact linearLoop_good 10000 1000 12 shortToChars (by omega) (by omega)
    (fun r h1 h2 => shortToChars_good h1 (lt_of_lt_of_le h2 (by norm_num)))
    10 12 n 1000 [] (by omega) (by omega) (Or.inl rfl) (e1 ▸ hlt) (Or.inl h0)

theorem midToChars_good {n : Nat} (h0 : 0 < n) (hlt : n < 10 ^ 40) :
    GoodChars (midToChars n) := by
  have e1 : (10 : Nat) ^ 40 = (10 ^ 8) ^ 5 := by norm_num
  show GoodChars (linearLoop (10 ^ 8) (10 ^ 7) 13 myriadToChars (List.range' 13 5) n (10 ^ 7) [])
  exact linearLoop_good (10 ^ 8) (10 ^ 7) 13 myriadToChars (by norm_num) (by omega)
    (fun r h1 h2 => myriadToChars_good h1 (lt_of_lt_of_le h2 (by norm_num)))
    5 13 n (10 ^ 7) [] (by omega) (by omega) (Or.inl rfl) (e1 ▸ hlt) (Or.inl h0)

theorem longToChars_good {n : Nat} (h0 : 0 < n) (hlt : n < 10 ^ 48) :
    GoodChars (longToChars n) := by
  have e1 : (10 : Nat) ^ 48 = (10 ^ 16) ^ 3 := by norm_num
  show GoodChars
    (linearLoop (10 ^ 16) (10 ^ 15) 14 midToChars (List.range' 14 3) n (10 ^ 15) [])
  exact linearLoop_good (10 ^ 16) (10 ^ 15) 14 midToChars (by norm_num) (by omega)
    (fun r h1 h2 => midToChars_good h1 (lt_of_lt_of_le h2 (by norm_num)))
    3 14 n (10 ^ 15) [] (by omega) (by omega) (Or.inl rfl) (e1 ▸ hlt) (Or.inl h0)

theorem myriadBigToChars_good {n : Nat} (h0 : 0 < n) (hlt : n < 10 ^ 48) :
    GoodChars (myriadBigToChars n) := by
  have e1 : (10 : Nat) ^ 48 = 10000 ^ 12 := by norm_num
  show GoodChars (linearLoop 10000 1000 12 shortToChars (List.range' 12 12) n 1000 [])
  exact linearLoop_good 10000 1000 12 shortToChars (by omega) (by omega)
    (fun r h1 h2 => shortToChars_good h1 (lt_of_lt_of_le h2 (by norm_num)))
    12 12 n 1000 [] (by omega) (by omega) (Or.inl rfl) (e1 ▸ hlt) (Or.inl h0)

theorem midBigToChars_good {n : Nat} (h0 : 0 < n) (hlt : n < 10 ^ 88) :
    GoodChars (midBigToChars n) := by
  have e1 : (10 : Nat) ^ 88 = (10 ^ 8) ^ 11 := by norm_num
  show GoodChars
    (linearLoop (10 ^ 8) (10 ^ 7) 13 myriadToChars (List.range' 13 11) n (10 ^ 7) [])
  exact linearLoop_good (10 ^ 8) (10 ^ 7) 13 myriadToChars (by norm_num) (by omega)
    (fun r h1 h2 => myriadToChars_good h1 (lt_of_lt_of_le h2 (by norm_num)))
    11 13 n (10 ^ 7) [] (by omega) (by omega) (Or.inl rfl) (e1 ▸ hlt) (Or.inl h0)

theorem myriadToChars_suffix {n : Nat} (h0 : 0 < n) (hlt : n < 10 ^ 40) :
    ∃ pre, myriadToChars n = pre ++ shortToChars (leadDivB 10000 n) := by
  have e1 : (10 : Nat) ^ 40 = 10000 ^ 10 := by norm_num
  show ∃ pre, linearLoop 10000 1000 12 shortToChars (List.range' 12 10) n 1000 []
      = pre ++ shortToChars (leadDivB 10000 n)
  exact linearLoop_suffix 10000 1000 12 shortToChars (by omega) _ n 1000 [] h0
    (by rw [List.length_range']; exact e1 ▸ hlt)

theorem midToChars_suffix {n : Nat} (h0 : 0 < n) (hlt : n < 10 ^ 40) :
    ∃ pre, midToChars n = pre ++ shortToChars (leadDivB 10000 n) := by
  have e2 : (10 : Nat) ^ 40 = (10 ^ 8) ^ 5 := by norm_num
  obtain ⟨p1, hp1⟩ : ∃ pre, midToChars n = pre ++ myriadToChars (leadDivB (10 ^ 8) n) := by
    show ∃ pre,
      linearLoop (10 ^ 8) (10 ^ 7) 13 myriadToChars (List.range' 13 5) n (10 ^ 7) [] = _
    exact linearLoop_suffix (10 ^ 8) (10 ^ 7) 13 myriadToChars (by norm_num) _ n (10 ^ 7) []
      h0 (by rw [List.length_range']; exact e2 ▸ hlt)
  have hm0 : 0 < leadDivB (10 ^ 8) n := leadDivB_pos (by norm_num) n h0
  have hmlt : leadDivB (10 ^ 8) n < 10 ^ 40 :=
    lt_of_lt_of_le (leadDivB_lt (by norm_num) n) (by norm_num)
  obtain ⟨p2, hp2⟩ := myriadToChars_suffix hm0 hmlt
  have e3 : leadDivB 10000 (leadDivB (10 ^ 8) n) = leadDivB 10000 n := by
    have e4 : (10 : Nat) ^ 8 = 10000 ^ 2 := by norm_num
    rw [e4]
    exact leadDivB_compose (by omega) 2 (by omega) n
  exact ⟨p1 ++ p2, by rw [hp1, hp2, e3, List.append_assoc]⟩

theorem longToChars_suffix {n : Nat} (h0 : 0 < n) (hlt : n < 10 ^ 48) :
    ∃ pre, longToChars n = pre ++ shortToChars (leadDivB 10000 n) := by
  have e2 : (10 : Nat) ^ 48 = (10 ^ 16) ^ 3 := by norm_num
  obtain ⟨p1, hp1⟩ : ∃ pre, longToChars n = pre ++ midToChars (leadDivB (10 ^ 16) n) := by
    show ∃ pre,
      linearLoop (10 ^ 16) (10 ^ 15) 14 midToChars (List.range' 14 3) n (10 ^ 15) [] = _
    exact linearLoop_suffix (10 ^ 16) (10 ^ 15) 14 midToChars (by norm_num) _ n (10 ^ 15) []
      h0 (by rw [List.length_range']; exact e2 ▸ hlt)
  have hm0 : 0 < leadDivB (10 ^ 16) n := leadDivB_pos (by norm_num) n h0
  have hmlt : leadDivB (10 ^ 16) n < 10 ^ 40 :=
    lt_of_lt_of_le (leadDivB_lt (by norm_num) n) (by norm_num)
  obtain ⟨p2, hp2⟩ := midToChars_suffix hm0 hmlt
  have e3 : leadDivB 10000 (leadDivB (10 ^ 16) n) = leadDivB 10000 n := by
    have e4 : (10 : Nat) ^ 16 = 10000 ^ 4 := by norm_num
    rw [e4]
    exact leadDivB_compose (by omega) 4 (by omega) n
  exact ⟨p1 ++ p2, by rw [hp1, hp2, e3, List.append_assoc]⟩

theorem myriadBigToChars_suffix {n : Nat} (h0 : 0 < n) (hlt : n < 10 ^ 48) :
    ∃ pre, myriadBigToChars n = pre ++ shortToChars (leadDivB 10000 n) := by
  have e1 : (10 : Nat) ^ 48 = 10000 ^ 12 := by norm_num
  show ∃ pre, linearLoop 10000 1000 12 shortToChars (List.range' 12 12) n 1000 []
      = pre ++ shortToChars (leadDivB 10000 n)
  exact linearLoop_suffix 10000 1000 12 shortToChars (by omega) _ n 1000 [] h0
    (by rw [List.length_range']; exact e1 ▸ hlt)

theorem midBigToChars_suffix {n : Nat} (h0 : 0 < n) (hlt : n < 10 ^ 88) :
    ∃ pre, midBigToChars n = pre ++ shortToChars (leadDivB 10000 n) := by
  have e2 : (10 : Nat) ^ 88 = (10 ^ 8) ^ 11 := by norm_num
  obtain ⟨p1, hp1⟩ : ∃ pre, midBigToChars n = pre ++ myriadToChars (leadDivB (10 ^ 8) n) := by
    show ∃ pre,
      linearLoop (10 ^ 8) (10 ^ 7) 13 myriadToChars (List.range' 13 11) n (10 ^ 7) [] = _
    exact linearLoop_suffix (10 ^ 8) (10 ^ 7) 13 myriadToChars (by norm_num) _ n (10 ^ 7) []
      h0 (by rw [List.length_range']; exact e2 ▸ hlt)
  have hm0 : 0 < leadDivB (10 ^ 8) n := leadDivB_pos (by norm_num) n h0
  have hmlt : leadDivB (10 ^ 8) n < 10 ^ 40 :=
    lt_of_lt_of_le (leadDivB_lt (by norm_num) n) (by norm_num)
  obtain ⟨p2, hp2⟩ := myriadToChars_suffix hm0 hmlt
  have e3 : leadDivB 10000 (leadDivB (10 ^ 8) n) = leadDivB 10000 n := by
    have e4 : (10 : Nat) ^ 8 = 10000 ^ 2 := by norm_num
    rw [e4]
    exact leadDivB_compose (by omega) 2 (by omega) n
  exact ⟨p1 ++ p2, by rw [hp1, hp2, e3, List.append_assoc]⟩

/-! ### The leading group in the range 10 to 19 -/

theorem short_teens :
    ∀ d < 20, 10 ≤ d →
      (shortToChars d).getLast? = some NumChar.One ∧
      (shortToChars d).dropLast.getLast? = some NumChar.Shi ∧
      (shortToChars d).dropLast ≠ [] ∧
      (shortToChars d).dropLast.head? = (shortToChars d).head? ∧
      NoAdjZero (shortToChars d).dropLast ∧
      GoodChars (shortToChars d).dropLast := by decide

theorem getLast_One_of_suffix {l pre : List NumChar} {d : Nat}
    (hp : l = pre ++ shortToChars d) (h10 : 10 ≤ d) (h19 : d ≤ 19) :
    l.getLast? = some NumChar.One ∧
    l.dropLast = pre ++ (shortToChars d).dropLast ∧
    l.dropLast.getLast? = some NumChar.Shi := by
  have hfacts := short_teens d (by omega) h10
  have hne : shortToChars d ≠ [] := by
    intro h
    rw [h] at hfacts
    simp at hfacts
  subst hp
  refine ⟨?_, ?_, ?_⟩
  · rw [List.getLast?_append_of_ne_nil _ hne]
    exact hfacts.1
  · exact List.dropLast_append_of_ne_nil _ hne
  · rw [List.dropLast_append_of_ne_nil _ hne,
      List.getLast?_append_of_ne_nil _ hfacts.2.2.1]
    exact hfacts.2.1

theorem goodChars_dropLast_suffix {pre sfx : List NumChar}
    (hgood : GoodChars (pre ++ sfx))
    (hne : sfx.dropLast ≠ []) (hh : sfx.dropLast.head? = sfx.head?)
    (hl : sfx.dropLast.getLast? ≠ some NumChar.Zero)
    (hc : NoAdjZero sfx.dropLast) :
    GoodChars ((pre ++ sfx).dropLast) := by
  have hsne : sfx ≠ [] := by
    intro h
    rw [h] at hne
    exact hne rfl
  rw [List.dropLast_append_of_ne_nil _ hsne]
  obtain ⟨hgne, hgh, hgl, hgc⟩ := hgood
  have hdec := (List.chain'_append).mp hgc
  refine ⟨by simp [hne], ?_, ?_, ?_⟩
  · by_cases hp : pre = []
    · subst hp
      simpa [hh] using hgh
    · rw [List.head?_append_of_ne_nil _ hp]
      rwa [List.head?_append_of_ne_nil _ hp] at hgh
  · rw [List.getLast?_append_of_ne_nil _ hne]
    exact hl
  · rw [NoAdjZero, List.chain'_append]
    refine ⟨hdec.1, hc, ?_⟩
    intro x hx y hy
    apply hdec.2.2 x hx y
    rwa [hh] at hy

/-! ### Rendering-level helper lemmas -/

theorem renderString_head {method : NumChar → Char} {cs : List NumChar} {c : NumChar}
    (h : cs.getLast? = some c) :
    (renderString method Sign.Pos cs).data.head? = some (method c) := by
  show (((cs ++ signChars Sign.Pos).reverse).map method).head? = some (method c)
  rw [List.head?_map, List.head?_reverse, signChars]
  simp [h]

theorem renderString_neg (method : NumChar → Char) (cs : List NumChar) :
    renderString method Sign.Neg cs
      = String.mk (method NumChar.Neg :: (renderString method Sign.Pos cs).data) := by
  show String.mk (((cs ++ signChars Sign.Neg).reverse).map method)
      = String.mk (method NumChar.Neg :: ((cs ++ signChars Sign.Pos).reverse).map method)
  rw [signChars, signChars]
  simp

theorem method_zero_iff :
    (∀ c, NumChar.toLowercaseSimp c = '零' → c = NumChar.Zero) ∧
    (∀ c, NumChar.toLowercaseTrad c = '零' → c = NumChar.Zero) ∧
    (∀ c, NumChar.toUppercaseSimp c = '零' → c = NumChar.Zero) ∧
    (∀ c, NumChar.toUppercaseTrad c = '零' → c = NumChar.Zero) := by
  refine ⟨?_, ?_, ?_, ?_⟩ <;> (intro c; cases c <;> decide)

theorem lowerMethod_zero {v : Variant} :
    ∀ c, lowerMethod v c = '零' → c = NumChar.Zero := by
  cases v
  · exact method_zero_iff.1
  · exact method_zero_iff.2.1

theorem upperMethod_zero {v : Variant} :
    ∀ c, upperMethod v c = '零' → c = NumChar.Zero := by
  cases v
  · exact method_zero_iff.2.2.1
  · exact method_zero_iff.2.2.2

theorem goodChars_append_sign {cs : List NumChar} (hcs : GoodChars cs) (sign : Sign)
    (hsign : sign ≠ Sign.Nil) : GoodChars (cs ++ signChars sign) := by
  obtain ⟨hne, hh, hl, hc⟩ := hcs
  cases sign with
  | Nil => exact absurd rfl hsign
  | Pos => simpa [signChars] using ⟨hne, hh, hl, hc⟩
  | Neg =>
    rw [signChars]
    refine ⟨by simp [hne], ?_, ?_, ?_⟩
    · rwa [List.head?_append_of_ne_nil _ hne]
    · rw [List.getLast?_append_of_ne_nil _ (by simp), List.getLast?_singleton]
      simp
    · rw [NoAdjZero, List.chain'_append]
      refine ⟨hc, List.chain'_singleton _, ?_⟩
      intro x hx y hy
      refine Or.inl ?_
      rintro rfl
      rw [Option.mem_def] at hx
      exact hl hx

theorem textZeroSafe_render {method : NumChar → Char} {sign : Sign} {cs : List NumChar}
    (hmap : ∀ c : NumChar, method c = '零' → c = NumChar.Zero)
    (hcs : GoodChars cs) (hsign : sign ≠ Sign.Nil) :
    TextZeroSafe (renderString method sign cs).data := by
  obtain ⟨hne, hh, hl, hc⟩ := goodChars_append_sign hcs sign hsign
  show TextZeroSafe (((cs ++ signChars sign).reverse).map method)
  refine ⟨?_, ?_, ?_⟩
  · rw [List.head?_map, List.head?_reverse]
    cases hx : (cs ++ signChars sign).getLast? with
    | none => simp
    | some x =>
      intro hcon
      have hcon : method x = '零' := Option.some.inj hcon
      exact hl (by rw [hx, hmap x hcon])
  · rw [List.getLast?_map, List.getLast?_reverse]
    cases hx : (cs ++ signChars sign).head? with
    | none => simp
    | some x =>
      intro hcon
      have hcon : method x = '零' := Option.some.inj hcon
      exact hh (by rw [hx, hmap x hcon])
  · rw [List.chain'_map, List.chain'_reverse]
    refine List.Chain'.imp ?_ hc
    intro a b hab
    rcases hab with ha | hb
    · exact Or.inr fun hcon => ha (hmap a hcon)
    · exact Or.inl fun hcon => hb (hmap b hcon)

/-! ### Goodness of the trimmed sequences -/

theorem shortTrimmed_good {n : Nat} (h0 : 0 < n) (hlt : n < 10 ^ 15) :
    GoodChars (shortToCharsTrimmed n) := by
  by_cases hcond : 10 ≤ n ∧ n ≤ 19
  · have htr : shortToCharsTrimmed n = (shortToChars n).dropLast := by
      unfold shortToCharsTrimmed
      rw [if_pos hcond]
    rw [htr]
    exact (short_teens n (by omega) hcond.1).2.2.2.2.2
  · have htr : shortToCharsTrimmed n = shortToChars n := by
      unfold shortToCharsTrimmed
      rw [if_neg hcond]
    rw [htr]
    exact shortToChars_good h0 hlt

theorem myriadTrimmed_good {n : Nat} (h0 : 0 < n) (hlt : n < 10 ^ 40) :
    GoodChars (myriadToCharsTrimmed n) := by
  by_cases hcond : 10 ≤ leadDivB 10000 n ∧ leadDivB 10000 n ≤ 19
  · have htr : myriadToCharsTrimmed n = (myriadToChars n).dropLast := by
      unfold myriadToCharsTrimmed
      rw [if_pos hcond]
    rw [htr]
    obtain ⟨pre, hp⟩ := myriadToChars_suffix h0 hlt
    have hfacts := short_teens (leadDivB 10000 n) (by omega) hcond.1
    rw [hp]
    exact goodChars_dropLast_suffix (hp ▸ myriadToChars_good h0 hlt)
      hfacts.2.2.1 hfacts.2.2.2.1 (by rw [hfacts.2.1]; simp) hfacts.2.2.2.2.1
  · have htr : myriadToCharsTrimmed n = myriadToChars n := by
      unfold myriadToCharsTrimmed
      rw [if_neg hcond]
    rw [htr]
    exact myriadToChars_good h0 hlt

theorem midTrimmed_good {n : Nat} (h0 : 0 < n) (hlt : n < 10 ^ 40) :
    GoodChars (midToCharsTrimmed n) := by
  by_cases hcond : 10 ≤ leadDivB 10000 n ∧ leadDivB 10000 n ≤ 19
  · have htr : midToCharsTrimmed n = (midToChars n).dropLast := by
      unfold midToCharsTrimmed
      rw [if_pos hcond]
    rw [htr]
    obtain ⟨pre, hp⟩ := midToChars_suffix h0 hlt
    have hfacts := short_teens (leadDivB 10000 n) (by omega) hcond.1
    rw [hp]
    exact goodChars_dropLast_suffix (hp ▸ midToChars_good h0 hlt)
      hfacts.2.2.1 hfacts.2.2.2.1 (by rw [hfacts.2.1]; simp) hfacts.2.2.2.2.1
  · have htr : midToCharsTrimmed n = midToChars n := by
      unfold midToCharsTrimmed
      rw [if_neg hcond]
    rw [htr]
    exact midToChars_good h0 hlt

theorem longTrimmed_good {n : Nat} (h0 : 0 < n) (hlt : n < 10 ^ 48) :
    GoodChars (longToCharsTrimmed n) := by
  by_cases hcond : 10 ≤ leadDivB 10000 n ∧ leadDivB 10000 n ≤ 19
  · have htr : longToCharsTrimmed n = (longToChars n).dropLast := by
      unfold longToCharsTrimmed
      rw [if_pos hcond]
    rw [htr]
    obtain ⟨pre, hp⟩ := longToChars_suffix h0 hlt
    have hfacts := short_teens (leadDivB 10000 n) (by omega) hcond.1
    rw [hp]
    exact goodChars_dropLast_suffix (hp ▸ longToChars_good h0 hlt)
      hfacts.2.2.1 hfacts.2.2.2.1 (by rw [hfacts.2.1]; simp) hfacts.2.2.2.2.1
  · have htr : longToCharsTrimmed n = longToChars n := by
      unfold longToCharsTrimmed
      rw [if_neg hcond]
    rw [htr]
    exact longToChars_good h0 hlt

/-! ### Claims -/

/-- C1: For every scale engine and every magnitude, the loop of `to_chars`
emits, processing groups from least to most significant, exactly one filler
`Zero` before a group's content precisely when that group's remainder is
nonzero, some lower group has already produced output, and the immediately
lower group's remainder was strictly below the engine's full-width threshold
`10^(width-1)`: the source loop `linearLoop` is extensionally equal to the
specification-side emission `specEmit`, whose filler rule is exactly that
condition (the `started` flag records that a lower group has produced
output).  In particular, the myriad-scale sequence for 10005 carries a
filler `Zero` between the `Myriad`-marked group and the units group 5, while
12345 produces no filler at all. -/
theorem claim_C1 :
    (∀ (base thresh startExp : Nat) (interior : Nat → List NumChar)
        (exps : List Nat) (num prev_rem : Nat) (chars : List NumChar),
        0 < base → (∀ r, 0 < r → r < base → interior r ≠ []) →
        linearLoop base thresh startExp interior exps num prev_rem chars
          = chars ++ specEmit base thresh startExp interior exps num prev_rem (!chars.isEmpty))
    ∧ myriadToChars 10005 = [NumChar.Five, NumChar.Zero, NumChar.Wan, NumChar.One]
    ∧ NumChar.Zero ∉ myriadToChars 12345 := by
  refine ⟨?_, by decide, by decide⟩
  intro base thresh startExp interior exps num prev_rem chars hbase hint
  exact linearLoop_eq_specEmit base thresh startExp interior hbase hint exps num prev_rem chars

/-- Witness for C1: the refinement instantiated on the short-scale engine at
magnitude 10005. -/
theorem claim_C1_witness :
    linearLoop 10 1 9 (fun rem => [numCharAt rem]) (List.range' 9 15) 10005 1 []
      = [] ++ specEmit 10 1 9 (fun rem => [numCharAt rem]) (List.range' 9 15) 10005 1
          (!(List.isEmpty ([] : List NumChar))) :=
  claim_C1.1 10 1 9 _ (List.range' 9 15) 10005 1 [] (by decide) (fun r h1 h2 => by simp)

/-- C9: for each of the four bounded scale structs, for every in-range value
whose most-significant group (the data reduced by repeated division by
`10^4`, or the data itself for the short scale) lies in `[10, 19]`, the last
element of `to_chars()` is exactly the symbol `One`, and `to_chars_trimmed()`
equals `to_chars()` with its final element removed — so the `debug_assert`
in every `to_chars_trimmed` implementation can never fail. -/
theorem claim_C9 :
    (∀ d : Nat, 10 ≤ d → d ≤ 19 →
      (shortToChars d).getLast? = some NumChar.One ∧
      shortToCharsTrimmed d = (shortToChars d).dropLast)
    ∧ (∀ n : Nat, 0 < n → n < 2 ^ 128 →
        10 ≤ leadDivB 10000 n → leadDivB 10000 n ≤ 19 →
        (myriadToChars n).getLast? = some NumChar.One ∧
        myriadToCharsTrimmed n = (myriadToChars n).dropLast)
    ∧ (∀ n : Nat, 0 < n → n < 2 ^ 128 →
        10 ≤ leadDivB 10000 n → leadDivB 10000 n ≤ 19 →
        (midToChars n).getLast? = some NumChar.One ∧
        midToCharsTrimmed n = (midToChars n).dropLast)
    ∧ (∀ n : Nat, 0 < n → n < 2 ^ 128 →
        10 ≤ leadDivB 10000 n → leadDivB 10000 n ≤ 19 →
        (longToChars n).getLast? = some NumChar.One ∧
        longToCharsTrimmed n = (longToChars n).dropLast) := by
  refine ⟨?_, ?_, ?_, ?_⟩
  · intro d h10 h19
    refine ⟨(short_teens d (by omega) h10).1, ?_⟩
    unfold shortToCharsTrimmed
    rw [if_pos ⟨h10, h19⟩]
  · intro n h0 hlt h10 h19
    have h40 : n < 10 ^ 40 := lt_of_lt_of_le hlt (by norm_num)
    obtain ⟨pre, hp⟩ := myriadToChars_suffix h0 h40
    obtain ⟨hOne, hdrop, hShi⟩ := getLast_One_of_suffix hp h10 h19
    refine ⟨hOne, ?_⟩
    unfold myriadToCharsTrimmed
    rw [if_pos ⟨h10, h19⟩]
  · intro n h0 hlt h10 h19
    have h40 : n < 10 ^ 40 := lt_of_lt_of_le hlt (by norm_num)
    obtain ⟨pre, hp⟩ := midToChars_suffix h0 h40
    obtain ⟨hOne, hdrop, hShi⟩ := getLast_One_of_suffix hp h10 h19
    refine ⟨hOne, ?_⟩
    unfold midToCharsTrimmed
    rw [if_pos ⟨h10, h19⟩]
  · intro n h0 hlt h10 h19
    have h48 : n < 10 ^ 48 := lt_of_lt_of_le hlt (by norm_num)
    obtain ⟨pre, hp⟩ := longToChars_suffix h0 h48
    obtain ⟨hOne, hdrop, hShi⟩ := getLast_One_of_suffix hp h10 h19
    refine ⟨hOne, ?_⟩
    unfold longToCharsTrimmed
    rw [if_pos ⟨h10, h19⟩]

/-- Witness for C9: the short scale at 12 and the myriad scale at 150005
(whose leading `10^4`-group is 15). -/
theorem claim_C9_witness :
    ((shortToChars 12).getLast? = some NumChar.One ∧
      shortToCharsTrimmed 12 = (shortToChars 12).dropLast)
    ∧ ((myriadToChars 150005).getLast? = some NumChar.One ∧
      myriadToCharsTrimmed 150005 = (myriadToChars 150005).dropLast) :=
  ⟨claim_C9.1 12 (by norm_num) (by norm_num),
   claim_C9.2.1 150005 (by norm_num) (by norm_num) (by decide) (by decide)⟩

/-- C2: for every scale, lowercase rendering of a nonzero in-range value
whose most-significant group lies in `[10, 19]` drops the leading `One`, so
the text begins with the `Ten` marker character of the chosen variant, while
uppercase rendering never drops that leading `One` and begins with the
variant's financial `One` character.  Concretely: 10 renders lowercase as
`十`, 19 as `十九`, 21 keeps its leading `二`, and 10 renders uppercase as
`壹拾`. -/
theorem claim_C2 :
    (∀ (d : Nat) (v : Variant), 10 ≤ d → d ≤ 19 →
      (ShortScaleInt.toLowercase ⟨Sign.Pos, d⟩ v).data.head?
          = some (lowerMethod v NumChar.Shi) ∧
      (ShortScaleInt.toUppercase ⟨Sign.Pos, d⟩ v).data.head?
          = some (upperMethod v NumChar.One))
    ∧ (∀ (n : Nat) (v : Variant), 0 < n → n < 2 ^ 128 →
        10 ≤ leadDivB 10000 n → leadDivB 10000 n ≤ 19 →
        (MyriadScaleInt.toLowercase ⟨Sign.Pos, n⟩ v).data.head?
            = some (lowerMethod v NumChar.Shi) ∧
        (MyriadScaleInt.toUppercase ⟨Sign.Pos, n⟩ v).data.head?
            = some (upperMethod v NumChar.One))
    ∧ (∀ (n : Nat) (v : Variant), 0 < n → n < 2 ^ 128 →
        10 ≤ leadDivB 10000 n → leadDivB 10000 n ≤ 19 →
        (MidScaleInt.toLowercase ⟨Sign.Pos, n⟩ v).data.head?
            = some (lowerMethod v NumChar.Shi) ∧
        (MidScaleInt.toUppercase ⟨Sign.Pos, n⟩ v).data.head?
            = some (upperMethod v NumChar.One))
    ∧ (∀ (n : Nat) (v : Variant), 0 < n → n < 2 ^ 128 →
        10 ≤ leadDivB 10000 n → leadDivB 10000 n ≤ 19 →
        (LongScaleInt.toLowercase ⟨Sign.Pos, n⟩ v).data.head?
            = some (lowerMethod v NumChar.Shi) ∧
        (LongScaleInt.toUppercase ⟨Sign.Pos, n⟩ v).data.head?
            = some (upperMethod v NumChar.One))
    ∧ ShortScaleInt.toLowercase ⟨Sign.Pos, 10⟩ Variant.Simplified = "十"
    ∧ ShortScaleInt.toLowercase ⟨Sign.Pos, 19⟩ Variant.Simplified = "十九"
    ∧ ShortScaleInt.toLowercase ⟨Sign.Pos, 21⟩ Variant.Simplified = "二十一"
    ∧ ShortScaleInt.toUppercase ⟨Sign.Pos, 10⟩ Variant.Simplified = "壹拾" := by
  refine ⟨?_, ?_, ?_, ?_, by decide, by decide, by decide, by decide⟩
  · intro d v h10 h19
    have hfacts := short_teens d (by omega) h10
    constructor
    · apply renderString_head
      have htr : shortToCharsTrimmed d = (shortToChars d).dropLast := by
        unfold shortToCharsTrimmed
        rw [if_pos ⟨h10, h19⟩]
      rw [htr]
      exact hfacts.2.1
    · exact renderString_head hfacts.1
  · intro n v h0 hlt h10 h19
    have h40 : n < 10 ^ 40 := lt_of_lt_of_le hlt (by norm_num)
    obtain ⟨pre, hp⟩ := myriadToChars_suffix h0 h40
    obtain ⟨hOne, hdrop, hShi⟩ := getLast_One_of_suffix hp h10 h19
    constructor
    · apply renderString_head
      have htr : myriadToCharsTrimmed n = (myriadToChars n).dropLast := by
        unfold myriadToCharsTrimmed
        rw [if_pos ⟨h10, h19⟩]
      rw [htr]
      exact hShi
    · exact renderString_head hOne
  · intro n v h0 hlt h10 h19
    have h40 : n < 10 ^ 40 := lt_of_lt_of_le hlt (by norm_num)
    obtain ⟨pre, hp⟩ := midToChars_suffix h0 h40
    obtain ⟨hOne, hdrop, hShi⟩ := getLast_One_of_suffix hp h10 h19
    constructor
    · apply renderString_head
      have htr : midToCharsTrimmed n = (midToChars n).dropLast := by
        unfold midToCharsTrimmed
        rw [if_pos ⟨h10, h19⟩]
      rw [htr]
      exact hShi
    · exact renderString_head hOne
  · intro n v h0 hlt h10 h19
    have h48 : n < 10 ^ 48 := lt_of_lt_of_le hlt (by norm_num)
    obtain ⟨pre, hp⟩ := longToChars_suffix h0 h48
    obtain ⟨hOne, hdrop, hShi⟩ := getLast_One_of_suffix hp h10 h19
    constructor
    · apply renderString_head
      have htr : longToCharsTrimmed n = (longToChars n).dropLast := by
        unfold longToCharsTrimmed
        rw [if_pos ⟨h10, h19⟩]
      rw [htr]
      exact hShi
    · exact renderString_head hOne

/-- Witness for C2: the short scale at 12 and the myriad scale at 150005,
both in simplified lowercase and uppercase. -/
theorem claim_C2_witness :
    ((ShortScaleInt.toLowercase ⟨Sign.Pos, 12⟩ Variant.Simplified).data.head?
        = some (lowerMethod Variant.Simplified NumChar.Shi) ∧
      (ShortScaleInt.toUppercase ⟨Sign.Pos, 12⟩ Variant.Simplified).data.head?
        = some (upperMethod Variant.Simplified NumChar.One))
    ∧ ((MyriadScaleInt.toLowercase ⟨Sign.Pos, 150005⟩ Variant.Traditional).data.head?
        = some (lowerMethod Variant.Traditional NumChar.Shi) ∧
      (MyriadScaleInt.toUppercase ⟨Sign.Pos, 150005⟩ Variant.Traditional).data.head?
        = some (upperMethod Variant.Traditional NumChar.One)) :=
  ⟨claim_C2.1 12 Variant.Simplified (by norm_num) (by norm_num),
   claim_C2.2.1 150005 Variant.Traditional (by norm_num) (by norm_num) (by decide) (by decide)⟩

/-- C3: for every scale struct, every variant and every case, a value whose
magnitude is zero renders as exactly one character — the rendering of the
single `Zero` symbol (`零`) — regardless of the sign supplied at
construction: every sign-taking constructor normalizes magnitude zero to the
`Nil`-signed zero value, and that value renders as `"零"` (length one) in
both registers for all seven scale structs. -/
theorem claim_C3 :
    ∀ (sign : Sign) (v : Variant),
      MyriadScaleInt.new sign 0 = ⟨Sign.Nil, 0⟩
      ∧ LongScaleInt.new sign 0 = ⟨Sign.Nil, 0⟩
      ∧ MidScaleInt.new_non_pos 0 = ⟨Sign.Nil, 0⟩
      ∧ ShortScaleInt.tryFromInt 0 = Except.ok ⟨Sign.Nil, 0⟩
      ∧ ShortScaleInt.toLowercase ⟨Sign.Nil, 0⟩ v = "零"
      ∧ ShortScaleInt.toUppercase ⟨Sign.Nil, 0⟩ v = "零"
      ∧ MyriadScaleInt.toLowercase (MyriadScaleInt.new sign 0) v = "零"
      ∧ MyriadScaleInt.toUppercase (MyriadScaleInt.new sign 0) v = "零"
      ∧ MidScaleInt.toLowercase (MidScaleInt.new_non_pos 0) v = "零"
      ∧ MidScaleInt.toUppercase (MidScaleInt.new_non_pos 0) v = "零"
      ∧ LongScaleInt.toLowercase (LongScaleInt.new sign 0) v = "零"
      ∧ LongScaleInt.toUppercase (LongScaleInt.new sign 0) v = "零"
      ∧ MyriadScaleBigInt.toLowercase ⟨Sign.Nil, 0⟩ v = "零"
      ∧ MyriadScaleBigInt.toUppercase ⟨Sign.Nil, 0⟩ v = "零"
      ∧ MidScaleBigInt.toLowercase ⟨Sign.Nil, 0⟩ v = "零"
      ∧ MidScaleBigInt.toUppercase ⟨Sign.Nil, 0⟩ v = "零"
      ∧ LongScaleBigInt.toLowercase ⟨Sign.Nil, 0⟩ v = "零"
      ∧ LongScaleBigInt.toUppercase ⟨Sign.Nil, 0⟩ v = "零"
      ∧ ("零" : String).length = 1 := by
  intro sign v
  cases sign <;> cases v <;> decide

/-- C4: for every scale struct, a value with negative sign and nonzero
magnitude renders — in both registers and both variants — as the `Negative`
marker character followed by exactly the rendering of the positive value
with the same magnitude. -/
theorem claim_C4 :
    ∀ (n : Nat) (v : Variant), n ≠ 0 →
      (ShortScaleInt.toLowercase ⟨Sign.Neg, n⟩ v
        = String.mk (lowerMethod v NumChar.Neg ::
            (ShortScaleInt.toLowercase ⟨Sign.Pos, n⟩ v).data))
      ∧ (ShortScaleInt.toUppercase ⟨Sign.Neg, n⟩ v
        = String.mk (upperMethod v NumChar.Neg ::
            (ShortScaleInt.toUppercase ⟨Sign.Pos, n⟩ v).data))
      ∧ (MyriadScaleInt.toLowercase ⟨Sign.Neg, n⟩ v
        = String.mk (lowerMethod v NumChar.Neg ::
            (MyriadScaleInt.toLowercase ⟨Sign.Pos, n⟩ v).data))
      ∧ (MyriadScaleInt.toUppercase ⟨Sign.Neg, n⟩ v
        = String.mk (upperMethod v NumChar.Neg ::
            (MyriadScaleInt.toUppercase ⟨Sign.Pos, n⟩ v).data))
      ∧ (MidScaleInt.toLowercase ⟨Sign.Neg, n⟩ v
        = String.mk (lowerMethod v NumChar.Neg ::
            (MidScaleInt.toLowercase ⟨Sign.Pos, n⟩ v).data))
      ∧ (MidScaleInt.toUppercase ⟨Sign.Neg, n⟩ v
        = String.mk (upperMethod v NumChar.Neg ::
            (MidScaleInt.toUppercase ⟨Sign.Pos, n⟩ v).data))
      ∧ (LongScaleInt.toLowercase ⟨Sign.Neg, n⟩ v
        = String.mk (lowerMethod v NumChar.Neg ::
            (LongScaleInt.toLowercase ⟨Sign.Pos, n⟩ v).data))
      ∧ (LongScaleInt.toUppercase ⟨Sign.Neg, n⟩ v
        = String.mk (upperMethod v NumChar.Neg ::
            (LongScaleInt.toUppercase ⟨Sign.Pos, n⟩ v).data))
      ∧ (MyriadScaleBigInt.toLowercase ⟨Sign.Neg, n⟩ v
        = String.mk (lowerMethod v NumChar.Neg ::
            (MyriadScaleBigInt.toLowercase ⟨Sign.Pos, n⟩ v).data))
      ∧ (MyriadScaleBigInt.toUppercase ⟨Sign.Neg, n⟩ v
        = String.mk (upperMethod v NumChar.Neg ::
            (MyriadScaleBigInt.toUppercase ⟨Sign.Pos, n⟩ v).data))
      ∧ (MidScaleBigInt.toLowercase ⟨Sign.Neg, n⟩ v
        = String.mk (lowerMethod v NumChar.Neg ::
            (MidScaleBigInt.toLowercase ⟨Sign.Pos, n⟩ v).data))
      ∧ (MidScaleBigInt.toUppercase ⟨Sign.Neg, n⟩ v
        = String.mk (upperMethod v NumChar.Neg ::
            (MidScaleBigInt.toUppercase ⟨Sign.Pos, n⟩ v).data))
      ∧ (LongScaleBigInt.toLowercase ⟨Sign.Neg, n⟩ v
        = String.mk (lowerMethod v NumChar.Neg ::
            (LongScaleBigInt.toLowercase ⟨Sign.Pos, n⟩ v).data))
      ∧ (LongScaleBigInt.toUppercase ⟨Sign.Neg, n⟩ v
        = String.mk (upperMethod v NumChar.Neg ::
            (LongScaleBigInt.toUppercase ⟨Sign.Pos, n⟩ v).data)) := by
  intro n v hn
  exact ⟨renderString_neg _ _, renderString_neg _ _, renderString_neg _ _,
    renderString_neg _ _, renderString_neg _ _, renderString_neg _ _,
    renderString_neg _ _, renderString_neg _ _, renderString_neg _ _,
    renderString_neg _ _, renderString_neg _ _, renderString_neg _ _,
    renderString_neg _ _, renderString_neg _ _⟩

/-- Witness for C4 at magnitude 5, simplified variant: `-5` renders as
`负五` lowercase and `负伍` uppercase. -/
theorem claim_C4_witness :
    ShortScaleInt.toLowercase ⟨Sign.Neg, 5⟩ Variant.Simplified
        = String.mk (lowerMethod Variant.Simplified NumChar.Neg ::
            (ShortScaleInt.toLowercase ⟨Sign.Pos, 5⟩ Variant.Simplified).data)
    ∧ ShortScaleInt.toLowercase ⟨Sign.Neg, 5⟩ Variant.Simplified = "负五" :=
  ⟨(claim_C4 5 Variant.Simplified (by norm_num)).1, by decide⟩

/-- C7 (code bug): the uppercase-traditional table of `characters.rs` falls
back to `to_lowercase_trad` for every symbol other than the three digits
`Two`, `Three`, `Six`, so the financial forms of the other digits and
markers (壹, 肆, 伍, 佰, 拾, …) are lost in the uppercase-traditional
register.  The embedded code therefore renders the `lib.rs` doc-test input
`MidScaleInt::from(1_0203_0405)` as `一億零貳百零叄萬零四百零五`, not the
string `壹億零貳佰零叄萬零肆佰零伍` that the doc test asserts. -/
theorem claim_C7 :
    NumChar.toUppercaseTrad NumChar.One = '一'
    ∧ NumChar.toUppercaseSimp NumChar.One = '壹'
    ∧ NumChar.toUppercaseTrad NumChar.Bai = '百'
    ∧ NumChar.toUppercaseTrad NumChar.Shi = '十'
    ∧ MidScaleInt.toUppercase ⟨Sign.Pos, 102030405⟩ Variant.Traditional
        = "一億零貳百零叄萬零四百零五"
    ∧ MidScaleInt.toUppercase ⟨Sign.Pos, 102030405⟩ Variant.Traditional
        ≠ "壹億零貳佰零叄萬零肆佰零伍" := by
  exact ⟨rfl, rfl, rfl, rfl, by decide, by decide⟩

/-- C5 counterexample: already at magnitude 10 (short scale, simplified
variant) the lowercase and uppercase renderings cannot be per-symbol images
of one common symbol sequence: lowercase uses the trimmed sequence `[Shi]`
(one character `十`) while uppercase uses the untrimmed `[Shi, One]` (two
characters `壹拾`), and a per-symbol mapping preserves length. -/
theorem claim_C5_counterexample :
    ¬ ∃ seq : List NumChar,
      ShortScaleInt.toLowercase ⟨Sign.Pos, 10⟩ Variant.Simplified
          = String.mk (seq.map NumChar.toLowercaseSimp) ∧
      ShortScaleInt.toUppercase ⟨Sign.Pos, 10⟩ Variant.Simplified
          = String.mk (seq.map NumChar.toUppercaseSimp) := by
  rintro ⟨seq, h1, h2⟩
  have h1' : (['十'] : List Char) = seq.map NumChar.toLowercaseSimp :=
    congrArg String.data h1
  have h2' : (['壹', '拾'] : List Char) = seq.map NumChar.toUppercaseSimp :=
    congrArg String.data h2
  have l1 := congrArg List.length h1'
  have l2 := congrArg List.length h2'
  simp only [List.length_map, List.length_cons, List.length_nil] at l1 l2
  omega

/-- C5 (amended): for every scale struct, the symbol sequence underlying the
rendering is identical across the two variants within each register — both
lowercase renderings are per-symbol images of the sign-extended reversed
`to_chars_trimmed` sequence and both uppercase renderings of the
`to_chars` sequence; the two sequences coincide whenever the
most-significant group is not in `[10, 19]`, and otherwise the uppercase
sequence is the lowercase one with the symbol `One` appended (so the four
renderings agree on one sequence exactly outside the leading-one-suppression
range). -/
theorem claim_C5 :
    (∀ (sign : Sign) (n : Nat),
      (∀ v, ShortScaleInt.toLowercase ⟨sign, n⟩ v
          = renderString (lowerMethod v) sign (shortToCharsTrimmed n)) ∧
      (∀ v, ShortScaleInt.toUppercase ⟨sign, n⟩ v
          = renderString (upperMethod v) sign (shortToChars n)) ∧
      (¬ (10 ≤ n ∧ n ≤ 19) → shortToCharsTrimmed n = shortToChars n) ∧
      (10 ≤ n → n ≤ 19 → shortToChars n = shortToCharsTrimmed n ++ [NumChar.One]))
    ∧ (∀ (sign : Sign) (n : Nat),
      (∀ v, MyriadScaleInt.toLowercase ⟨sign, n⟩ v
          = renderString (lowerMethod v) sign (myriadToCharsTrimmed n)) ∧
      (∀ v, MyriadScaleInt.toUppercase ⟨sign, n⟩ v
          = renderString (upperMethod v) sign (myriadToChars n)) ∧
      (¬ (10 ≤ leadDivB 10000 n ∧ leadDivB 10000 n ≤ 19) →
        myriadToCharsTrimmed n = myriadToChars n) ∧
      (0 < n → n < 2 ^ 128 → 10 ≤ leadDivB 10000 n → leadDivB 10000 n ≤ 19 →
        myriadToChars n = myriadToCharsTrimmed n ++ [NumChar.One]))
    ∧ (∀ (sign : Sign) (n : Nat),
      (∀ v, MidScaleInt.toLowercase ⟨sign, n⟩ v
          = renderString (lowerMethod v) sign (midToCharsTrimmed n)) ∧
      (∀ v, MidScaleInt.toUppercase ⟨sign, n⟩ v
          = renderString (upperMethod v) sign (midToChars n)) ∧
      (¬ (10 ≤ leadDivB 10000 n ∧ leadDivB 10000 n ≤ 19) →
        midToCharsTrimmed n = midToChars n) ∧
      (0 < n → n < 2 ^ 128 → 10 ≤ leadDivB 10000 n → leadDivB 10000 n ≤ 19 →
        midToChars n = midToCharsTrimmed n ++ [NumChar.One]))
    ∧ (∀ (sign : Sign) (n : Nat),
      (∀ v, LongScaleInt.toLowercase ⟨sign, n⟩ v
          = renderString (lowerMethod v) sign (longToCharsTrimmed n)) ∧
      (∀ v, LongScaleInt.toUppercase ⟨sign, n⟩ v
          = renderString (upperMethod v) sign (longToChars n)) ∧
      (¬ (10 ≤ leadDivB 10000 n ∧ leadDivB 10000 n ≤ 19) →
        longToCharsTrimmed n = longToChars n) ∧
      (0 < n → n < 2 ^ 128 → 10 ≤ leadDivB 10000 n → leadDivB 10000 n ≤ 19 →
        longToChars n = longToCharsTrimmed n ++ [NumChar.One])) := by
  refine ⟨?_, ?_, ?_, ?_⟩
  · intro sign n
    refine ⟨fun v => rfl, fun v => rfl, ?_, ?_⟩
    · intro hcond
      unfold shortToCharsTrimmed
      rw [if_neg hcond]
    · intro h10 h19
      have h1 := (short_teens n (by omega) h10).1
      have htr : shortToCharsTrimmed n = (shortToChars n).dropLast := by
        unfold shortToCharsTrimmed
        rw [if_pos ⟨h10, h19⟩]
      rw [htr]
      exact (List.dropLast_append_getLast? _ ((Option.mem_def).mpr h1)).symm
  · intro sign n
    refine ⟨fun v => rfl, fun v => rfl, ?_, ?_⟩
    · intro hcond
      unfold myriadToCharsTrimmed
      rw [if_neg hcond]
    · intro h0 hlt h10 h19
      have h40 : n < 10 ^ 40 := lt_of_lt_of_le hlt (by norm_num)
      obtain ⟨pre, hp⟩ := myriadToChars_suffix h0 h40
      obtain ⟨hOne, hdrop, hShi⟩ := getLast_One_of_suffix hp h10 h19
      have htr : myriadToCharsTrimmed n = (myriadToChars n).dropLast := by
        unfold myriadToCharsTrimmed
        rw [if_pos ⟨h10, h19⟩]
      rw [htr]
      exact (List.dropLast_append_getLast? _ ((Option.mem_def).mpr hOne)).symm
  · intro sign n
    refine ⟨fun v => rfl, fun v => rfl, ?_, ?_⟩
    · intro hcond
      unfold midToCharsTrimmed
      rw [if_neg hcond]
    · intro h0 hlt h10 h19
      have h40 : n < 10 ^ 40 := lt_of_lt_of_le hlt (by norm_num)
      obtain ⟨pre, hp⟩ := midToChars_suffix h0 h40
      obtain ⟨hOne, hdrop, hShi⟩ := getLast_One_of_suffix hp h10 h19
      have htr : midToCharsTrimmed n = (midToChars n).dropLast := by
        unfold midToCharsTrimmed
        rw [if_pos ⟨h10, h19⟩]
      rw [htr]
      exact (List.dropLast_append_getLast? _ ((Option.mem_def).mpr hOne)).symm
  · intro sign n
    refine ⟨fun v => rfl, fun v => rfl, ?_, ?_⟩
    · intro hcond
      unfold longToCharsTrimmed
      rw [if_neg hcond]
    · intro h0 hlt h10 h19
      have h48 : n < 10 ^ 48 := lt_of_lt_of_le hlt (by norm_num)
      obtain ⟨pre, hp⟩ := longToChars_suffix h0 h48
      obtain ⟨hOne, hdrop, hShi⟩ := getLast_One_of_suffix hp h10 h19
      have htr : longToCharsTrimmed n = (longToChars n).dropLast := by
        unfold longToCharsTrimmed
        rw [if_pos ⟨h10, h19⟩]
      rw [htr]
      exact (List.dropLast_append_getLast? _ ((Option.mem_def).mpr hOne)).symm

/-- Witness for C5: the short scale at 21 (no trimming, common sequence)
and at 12 (uppercase sequence is the lowercase one plus the leading One). -/
theorem claim_C5_witness :
    shortToCharsTrimmed 21 = shortToChars 21
    ∧ shortToChars 12 = shortToCharsTrimmed 12 ++ [NumChar.One] :=
  ⟨(claim_C5.1 Sign.Pos 21).2.2.1 (by omega),
   (claim_C5.1 Sign.Pos 12).2.2.2 (by omega) (by omega)⟩

/-- C6: every fallible conversion rejects magnitudes above its scale's
ceiling with the scale's typed `OutOfRange` error carrying exactly the
offending absolute value (the functions are total, so no panic is
possible), and accepts magnitudes exactly at the ceiling. -/
theorem claim_C6 :
    (∀ v : Nat, SHORT_MAX_ABS < v →
      ShortScaleInt.tryFromUint v = Except.error (Error.ShortScaleOutOfRange v))
    ∧ ShortScaleInt.tryFromUint SHORT_MAX_ABS = Except.ok ⟨Sign.Pos, SHORT_MAX_ABS⟩
    ∧ (∀ v : Int, SHORT_MAX_ABS < v.natAbs →
      ShortScaleInt.tryFromInt v = Except.error (Error.ShortScaleOutOfRange v.natAbs))
    ∧ ShortScaleInt.tryFromInt (SHORT_MAX_ABS : Int) = Except.ok ⟨Sign.Pos, SHORT_MAX_ABS⟩
    ∧ ShortScaleInt.tryFromInt (-(SHORT_MAX_ABS : Int)) = Except.ok ⟨Sign.Neg, SHORT_MAX_ABS⟩
    ∧ (∀ v : Nat, MYRIAD_BIG_MAX_ABS < v →
      MyriadScaleBigInt.tryFromBigUint v = Except.error (Error.MyriadScaleOutOfRange v))
    ∧ MyriadScaleBigInt.tryFromBigUint MYRIAD_BIG_MAX_ABS
        = Except.ok ⟨Sign.Pos, MYRIAD_BIG_MAX_ABS⟩
    ∧ (∀ v : Int, MYRIAD_BIG_MAX_ABS < v.natAbs →
      MyriadScaleBigInt.tryFromBigInt v
        = Except.error (Error.MyriadScaleOutOfRange v.natAbs))
    ∧ MyriadScaleBigInt.tryFromBigInt (MYRIAD_BIG_MAX_ABS : Int)
        = Except.ok ⟨Sign.Pos, MYRIAD_BIG_MAX_ABS⟩
    ∧ MyriadScaleBigInt.tryFromBigInt (-(MYRIAD_BIG_MAX_ABS : Int))
        = Except.ok ⟨Sign.Neg, MYRIAD_BIG_MAX_ABS⟩
    ∧ (∀ v : Nat, MID_BIG_MAX_ABS < v →
      MidScaleBigInt.tryFromBigUint v = Except.error (Error.MidScaleOutOfRange v))
    ∧ MidScaleBigInt.tryFromBigUint MID_BIG_MAX_ABS
        = Except.ok ⟨Sign.Pos, MID_BIG_MAX_ABS⟩
    ∧ (∀ v : Int, MID_BIG_MAX_ABS < v.natAbs →
      MidScaleBigInt.tryFromBigInt v = Except.error (Error.MidScaleOutOfRange v.natAbs))
    ∧ MidScaleBigInt.tryFromBigInt (MID_BIG_MAX_ABS : Int)
        = Except.ok ⟨Sign.Pos, MID_BIG_MAX_ABS⟩
    ∧ MidScaleBigInt.tryFromBigInt (-(MID_BIG_MAX_ABS : Int))
        = Except.ok ⟨Sign.Neg, MID_BIG_MAX_ABS⟩
    ∧ (∀ v : Nat, LONG_BIG_MAX_ABS < v →
      LongScaleBigInt.tryFromBigUint v = Except.error (Error.LongScaleOutOfRange v))
    ∧ LongScaleBigInt.tryFromBigUint LONG_BIG_MAX_ABS
        = Except.ok ⟨Sign.Pos, LONG_BIG_MAX_ABS⟩
    ∧ (∀ v : Int, LONG_BIG_MAX_ABS < v.natAbs →
      LongScaleBigInt.tryFromBigInt v = Except.error (Error.LongScaleOutOfRange v.natAbs))
    ∧ LongScaleBigInt.tryFromBigInt (LONG_BIG_MAX_ABS : Int)
        = Except.ok ⟨Sign.Pos, LONG_BIG_MAX_ABS⟩
    ∧ LongScaleBigInt.tryFromBigInt (-(LONG_BIG_MAX_ABS : Int))
        = Except.ok ⟨Sign.Neg, LONG_BIG_MAX_ABS⟩ := by
  refine ⟨?_, by decide, ?_, by decide, by decide,
    ?_, by decide, ?_, by decide, by decide,
    ?_, by decide, ?_, by decide, by decide,
    ?_, by decide, ?_, by decide, by decide⟩
  · intro v hv
    have h1 : ¬ v = 0 := by omega
    have h2 : ¬ v ≤ SHORT_MAX_ABS := by omega
    unfold ShortScaleInt.tryFromUint
    rw [if_neg h1, if_neg h2]
  · intro v hv
    have hcond : v < -(SHORT_MAX_ABS : Int) ∨ (SHORT_MAX_ABS : Int) < v := by omega
    unfold ShortScaleInt.tryFromInt
    rw [if_pos hcond]
    have habs : (if v = -(2 ^ 127) then (2 ^ 127 : Nat) else v.natAbs) = v.natAbs := by
      by_cases hm : v = -(2 ^ 127)
      · rw [if_pos hm, hm]
        decide
      · rw [if_neg hm]
    rw [habs]
  · intro v hv
    have h1 : ¬ v = 0 := by omega
    have h2 : ¬ v ≤ MYRIAD_BIG_MAX_ABS := by omega
    unfold MyriadScaleBigInt.tryFromBigUint
    rw [if_neg h1, if_neg h2]
  · intro v hv
    have hcond : v < -(MYRIAD_BIG_MAX_ABS : Int) ∨ (MYRIAD_BIG_MAX_ABS : Int) < v := by
      omega
    unfold MyriadScaleBigInt.tryFromBigInt
    rw [if_pos hcond]
  · intro v hv
    have h1 : ¬ v = 0 := by omega
    have h2 : ¬ v ≤ MID_BIG_MAX_ABS := by omega
    unfold MidScaleBigInt.tryFromBigUint
    rw [if_neg h1, if_neg h2]
  · intro v hv
    have hcond : v < -(MID_BIG_MAX_ABS : Int) ∨ (MID_BIG_MAX_ABS : Int) < v := by omega
    unfold MidScaleBigInt.tryFromBigInt
    rw [if_pos hcond]
  · intro v hv
    have h1 : ¬ v = 0 := by omega
    have h2 : ¬ v ≤ LONG_BIG_MAX_ABS := by omega
    unfold LongScaleBigInt.tryFromBigUint
    rw [if_neg h1, if_neg h2]
  · intro v hv
    have hcond : v < -(LONG_BIG_MAX_ABS : Int) ∨ (LONG_BIG_MAX_ABS : Int) < v := by omega
    unfold LongScaleBigInt.tryFromBigInt
    rw [if_pos hcond]

/-- Witness for C6: each conversion rejected just above its ceiling, with
the exact offending absolute value in the error. -/
theorem claim_C6_witness :
    ShortScaleInt.tryFromUint (SHORT_MAX_ABS + 1)
        = Except.error (Error.ShortScaleOutOfRange (SHORT_MAX_ABS + 1))
    ∧ ShortScaleInt.tryFromInt (-(SHORT_MAX_ABS : Int) - 1)
        = Except.error (Error.ShortScaleOutOfRange ((-(SHORT_MAX_ABS : Int) - 1).natAbs))
    ∧ MyriadScaleBigInt.tryFromBigUint (MYRIAD_BIG_MAX_ABS + 1)
        = Except.error (Error.MyriadScaleOutOfRange (MYRIAD_BIG_MAX_ABS + 1))
    ∧ MyriadScaleBigInt.tryFromBigInt (-(MYRIAD_BIG_MAX_ABS : Int) - 1)
        = Except.error (Error.MyriadScaleOutOfRange ((-(MYRIAD_BIG_MAX_ABS : Int) - 1).natAbs))
    ∧ MidScaleBigInt.tryFromBigUint (MID_BIG_MAX_ABS + 1)
        = Except.error (Error.MidScaleOutOfRange (MID_BIG_MAX_ABS + 1))
    ∧ MidScaleBigInt.tryFromBigInt (-(MID_BIG_MAX_ABS : Int) - 1)
        = Except.error (Error.MidScaleOutOfRange ((-(MID_BIG_MAX_ABS : Int) - 1).natAbs))
    ∧ LongScaleBigInt.tryFromBigUint (LONG_BIG_MAX_ABS + 1)
        = Except.error (Error.LongScaleOutOfRange (LONG_BIG_MAX_ABS + 1))
    ∧ LongScaleBigInt.tryFromBigInt (-(LONG_BIG_MAX_ABS : Int) - 1)
        = Except.error (Error.LongScaleOutOfRange ((-(LONG_BIG_MAX_ABS : Int) - 1).natAbs)) :=
  ⟨claim_C6.1 _ (by omega),
   claim_C6.2.2.1 _ (by omega),
   claim_C6.2.2.2.2.2.1 _ (by omega),
   claim_C6.2.2.2.2.2.2.2.1 _ (by omega),
   claim_C6.2.2.2.2.2.2.2.2.2.2.1 _ (by omega),
   claim_C6.2.2.2.2.2.2.2.2.2.2.2.2.1 _ (by omega),
   claim_C6.2.2.2.2.2.2.2.2.2.2.2.2.2.2.2.1 _ (by omega),
   claim_C6.2.2.2.2.2.2.2.2.2.2.2.2.2.2.2.2.2.1 _ (by omega)⟩

/-- C8: every constructor of every scale struct yields sign `Nil` whenever
the magnitude is exactly zero and keeps the supplied or derived sign
whenever the magnitude is nonzero — for the normalizing factories
(`MyriadScaleInt::new`, `LongScaleInt::new`, `MidScaleInt::new_non_pos`),
the `From` conversions of unsigned and signed primitives, and all `TryFrom`
conversions. -/
theorem claim_C8 :
    (∀ (sign : Sign) (data : Nat),
      (data = 0 → MyriadScaleInt.new sign data = ⟨Sign.Nil, 0⟩) ∧
      (data ≠ 0 → (MyriadScaleInt.new sign data).sign = sign))
    ∧ (∀ (sign : Sign) (data : Nat),
      (data = 0 → LongScaleInt.new sign data = ⟨Sign.Nil, 0⟩) ∧
      (data ≠ 0 → (LongScaleInt.new sign data).sign = sign))
    ∧ (∀ abs : Nat,
      (abs = 0 → MidScaleInt.new_non_pos abs = ⟨Sign.Nil, 0⟩) ∧
      (abs ≠ 0 → (MidScaleInt.new_non_pos abs).sign = Sign.Neg))
    ∧ (∀ value : Nat,
      (value = 0 → fromUintSignData value = (Sign.Nil, 0)) ∧
      (value ≠ 0 → (fromUintSignData value).1 = Sign.Pos))
    ∧ (∀ preMin value : Int,
      (value = 0 → fromIntSignData preMin value = (Sign.Nil, 0)) ∧
      (value < 0 → (fromIntSignData preMin value).1 = Sign.Neg) ∧
      (0 < value → (fromIntSignData preMin value).1 = Sign.Pos))
    ∧ (∀ (value : Nat) (r : ShortScaleInt),
      ShortScaleInt.tryFromUint value = Except.ok r →
      (value = 0 → r.sign = Sign.Nil) ∧ (value ≠ 0 → r.sign = Sign.Pos))
    ∧ (∀ (value : Int) (r : ShortScaleInt),
      ShortScaleInt.tryFromInt value = Except.ok r →
      (value = 0 → r.sign = Sign.Nil) ∧ (value < 0 → r.sign = Sign.Neg) ∧
        (0 < value → r.sign = Sign.Pos))
    ∧ (∀ (value : Nat) (r : MyriadScaleBigInt),
      MyriadScaleBigInt.tryFromBigUint value = Except.ok r →
      (value = 0 → r.sign = Sign.Nil) ∧ (value ≠ 0 → r.sign = Sign.Pos))
    ∧ (∀ (value : Int) (r : MyriadScaleBigInt),
      MyriadScaleBigInt.tryFromBigInt value = Except.ok r →
      (value = 0 → r.sign = Sign.Nil) ∧ (value < 0 → r.sign = Sign.Neg) ∧
        (0 < value → r.sign = Sign.Pos))
    ∧ (∀ (value : Nat) (r : MidScaleBigInt),
      MidScaleBigInt.tryFromBigUint value = Except.ok r →
      (value = 0 → r.sign = Sign.Nil) ∧ (value ≠ 0 → r.sign = Sign.Pos))
    ∧ (∀ (value : Int) (r : MidScaleBigInt),
      MidScaleBigInt.tryFromBigInt value = Except.ok r →
      (value = 0 → r.sign = Sign.Nil) ∧ (value < 0 → r.sign = Sign.Neg) ∧
        (0 < value → r.sign = Sign.Pos))
    ∧ (∀ (value : Nat) (r : LongScaleBigInt),
      LongScaleBigInt.tryFromBigUint value = Except.ok r →
      (value = 0 → r.sign = Sign.Nil) ∧ (value ≠ 0 → r.sign = Sign.Pos))
    ∧ (∀ (value : Int) (r : LongScaleBigInt),
      LongScaleBigInt.tryFromBigInt value = Except.ok r →
      (value = 0 → r.sign = Sign.Nil) ∧ (value < 0 → r.sign = Sign.Neg) ∧
        (0 < value → r.sign = Sign.Pos)) := by
  refine ⟨?_, ?_, ?_, ?_, ?_, ?_, ?_, ?_, ?_, ?_, ?_, ?_, ?_⟩
  · intro sign data
    exact ⟨fun h => by simp [MyriadScaleInt.new, h],
      fun h => by simp [MyriadScaleInt.new, h]⟩
  · intro sign data
    exact ⟨fun h => by simp [LongScaleInt.new, h],
      fun h => by simp [LongScaleInt.new, h]⟩
  · intro abs
    exact ⟨fun h => by simp [MidScaleInt.new_non_pos, h],
      fun h => by simp [MidScaleInt.new_non_pos, h]⟩
  · intro value
    exact ⟨fun h => by simp [fromUintSignData, h],
      fun h => by simp [fromUintSignData, h]⟩
  · intro preMin value
    refine ⟨fun h => by simp [fromIntSignData, h], ?_, ?_⟩
    · intro h
      unfold fromIntSignData
      rw [if_neg (by omega : ¬ value = 0), if_pos h]
    · intro h
      unfold fromIntSignData
      rw [if_neg (by omega : ¬ value = 0), if_neg (by omega : ¬ value < 0)]
  · intro value r h
    unfold ShortScaleInt.tryFromUint at h
    by_cases h1 : value = 0
    · rw [if_pos h1] at h
      obtain rfl := (Except.ok.inj h).symm
      exact ⟨fun _ => rfl, fun hv => absurd h1 hv⟩
    · rw [if_neg h1] at h
      by_cases h2 : value ≤ SHORT_MAX_ABS
      · rw [if_pos h2] at h
        obtain rfl := (Except.ok.inj h).symm
        exact ⟨fun hv => absurd hv h1, fun _ => rfl⟩
      · rw [if_neg h2] at h
        exact Except.noConfusion h
  · intro value r h
    unfold ShortScaleInt.tryFromInt at h
    by_cases h1 : value < -(SHORT_MAX_ABS : Int) ∨ (SHORT_MAX_ABS : Int) < value
    · rw [if_pos h1] at h
      exact Except.noConfusion h
    · rw [if_neg h1] at h
      by_cases h2 : value < 0
      · rw [if_pos h2] at h
        obtain rfl := (Except.ok.inj h).symm
        exact ⟨fun hv => absurd hv (by omega), fun _ => rfl, fun hv => absurd hv (by omega)⟩
      · rw [if_neg h2] at h
        by_cases h3 : 0 < value
        · rw [if_pos h3] at h
          obtain rfl := (Except.ok.inj h).symm
          exact ⟨fun hv => absurd hv (by omega), fun hv => absurd hv (by omega), fun _ => rfl⟩
        · rw [if_neg h3] at h
          obtain rfl := (Except.ok.inj h).symm
          exact ⟨fun _ => rfl, fun hv => absurd hv h2, fun hv => absurd hv h3⟩
  · intro value r h
    unfold MyriadScaleBigInt.tryFromBigUint at h
    by_cases h1 : value = 0
    · rw [if_pos h1] at h
      obtain rfl := (Except.ok.inj h).symm
      exact ⟨fun _ => rfl, fun hv => absurd h1 hv⟩
    · rw [if_neg h1] at h
      by_cases h2 : value ≤ MYRIAD_BIG_MAX_ABS
      · rw [if_pos h2] at h
        obtain rfl := (Except.ok.inj h).symm
        exact ⟨fun hv => absurd hv h1, fun _ => rfl⟩
      · rw [if_neg h2] at h
        exact Except.noConfusion h
  · intro value r h
    unfold MyriadScaleBigInt.tryFromBigInt at h
    by_cases h1 : value < -(MYRIAD_BIG_MAX_ABS : Int) ∨ (MYRIAD_BIG_MAX_ABS : Int) < value
    · rw [if_pos h1] at h
      exact Except.noConfusion h
    · rw [if_neg h1] at h
      by_cases h2 : value = 0
      · rw [if_pos h2] at h
        obtain rfl := (Except.ok.inj h).symm
        exact ⟨fun _ => rfl, fun hv => absurd hv (by omega), fun hv => absurd hv (by omega)⟩
      · rw [if_neg h2] at h
        by_cases h3 : value < 0
        · rw [if_pos h3] at h
          obtain rfl := (Except.ok.inj h).symm
          exact ⟨fun hv => absurd hv h2, fun _ => rfl, fun hv => absurd hv (by omega)⟩
        · rw [if_neg h3] at h
          obtain rfl := (Except.ok.inj h).symm
          exact ⟨fun hv => absurd hv h2, fun hv => absurd hv h3, fun _ => rfl⟩
  · intro value r h
    unfold MidScaleBigInt.tryFromBigUint at h
    by_cases h1 : value = 0
    · rw [if_pos h1] at h
      obtain rfl := (Except.ok.inj h).symm
      exact ⟨fun _ => rfl, fun hv => absurd h1 hv⟩
    · rw [if_neg h1] at h
      by_cases h2 : value ≤ MID_BIG_MAX_ABS
      · rw [if_pos h2] at h
        obtain rfl := (Except.ok.inj h).symm
        exact ⟨fun hv => absurd hv h1, fun _ => rfl⟩
      · rw [if_neg h2] at h
        exact Except.noConfusion h
  · intro value r h
    unfold MidScaleBigInt.tryFromBigInt at h
    by_cases h1 : value < -(MID_BIG_MAX_ABS : Int) ∨ (MID_BIG_MAX_ABS : Int) < value
    · rw [if_pos h1] at h
      exact Except.noConfusion h
    · rw [if_neg h1] at h
      by_cases h2 : value = 0
      · rw [if_pos h2] at h
        obtain rfl := (Except.ok.inj h).symm
        exact ⟨fun _ => rfl, fun hv => absurd hv (by omega), fun hv => absurd hv (by omega)⟩
      · rw [if_neg h2] at h
        by_cases h3 : value < 0
        · rw [if_pos h3] at h
          obtain rfl := (Except.ok.inj h).symm
          exact ⟨fun hv => absurd hv h2, fun _ => rfl, fun hv => absurd hv (by omega)⟩
        · rw [if_neg h3] at h
          obtain rfl := (Except.ok.inj h).symm
          exact ⟨fun hv => absurd hv h2, fun hv => absurd hv h3, fun _ => rfl⟩
  · intro value r h
    unfold LongScaleBigInt.tryFromBigUint at h
    by_cases h1 : value = 0
    · rw [if_pos h1] at h
      obtain rfl := (Except.ok.inj h).symm
      exact ⟨fun _ => rfl, fun hv => absurd h1 hv⟩
    · rw [if_neg h1] at h
      by_cases h2 : value ≤ LONG_BIG_MAX_ABS
      · rw [if_pos h2] at h
        obtain rfl := (Except.ok.inj h).symm
        exact ⟨fun hv => absurd hv h1, fun _ => rfl⟩
      · rw [if_neg h2] at h
        exact Except.noConfusion h
  · intro value r h
    unfold LongScaleBigInt.tryFromBigInt at h
    by_cases h1 : value < -(LONG_BIG_MAX_ABS : Int) ∨ (LONG_BIG_MAX_ABS : Int) < value
    · rw [if_pos h1] at h
      exact Except.noConfusion h
    · rw [if_neg h1] at h
      by_cases h2 : value = 0
      · rw [if_pos h2] at h
        obtain rfl := (Except.ok.inj h).symm
        exact ⟨fun _ => rfl, fun hv => absurd hv (by omega), fun hv => absurd hv (by omega)⟩
      · rw [if_neg h2] at h
        by_cases h3 : value < 0
        · rw [if_pos h3] at h
          obtain rfl := (Except.ok.inj h).symm
          exact ⟨fun hv => absurd hv h2, fun _ => rfl, fun hv => absurd hv (by omega)⟩
        · rw [if_neg h3] at h
          obtain rfl := (Except.ok.inj h).symm
          exact ⟨fun hv => absurd hv h2, fun hv => absurd hv h3, fun _ => rfl⟩

/-- Witness for C8: zero and nonzero magnitudes through a normalizing
factory and the signed `From` conversion. -/
theorem claim_C8_witness :
    MyriadScaleInt.new Sign.Neg 0 = ⟨Sign.Nil, 0⟩
    ∧ (MyriadScaleInt.new Sign.Neg 7).sign = Sign.Neg
    ∧ (fromIntSignData (-(2 ^ 31)) (-5)).1 = Sign.Neg :=
  ⟨(claim_C8.1 Sign.Neg 0).1 rfl,
   (claim_C8.1 Sign.Neg 7).2 (by omega),
   (claim_C8.2.2.2.2.1 (-(2 ^ 31)) (-5)).2.1 (by omega)⟩

/-- C10: for every nonzero in-range value of each of the four bounded scale
structs, `to_chars()` returns a nonempty symbol sequence whose first and
last elements differ from `Zero` and which contains no two adjacent `Zero`
symbols (the invariant `GoodChars`); consequently the rendered text of a
nonzero number — in both registers and both variants, for positive or
negative sign — never starts with, ends with, or contains a doubled `零`
character (`TextZeroSafe`). -/
theorem claim_C10 :
    (∀ n : Nat, 0 < n → n ≤ SHORT_MAX_ABS →
      GoodChars (shortToChars n) ∧
      ∀ (sign : Sign) (v : Variant), sign ≠ Sign.Nil →
        TextZeroSafe (ShortScaleInt.toLowercase ⟨sign, n⟩ v).data ∧
        TextZeroSafe (ShortScaleInt.toUppercase ⟨sign, n⟩ v).data)
    ∧ (∀ n : Nat, 0 < n → n < 2 ^ 128 →
      GoodChars (myriadToChars n) ∧
      ∀ (sign : Sign) (v : Variant), sign ≠ Sign.Nil →
        TextZeroSafe (MyriadScaleInt.toLowercase ⟨sign, n⟩ v).data ∧
        TextZeroSafe (MyriadScaleInt.toUppercase ⟨sign, n⟩ v).data)
    ∧ (∀ n : Nat, 0 < n → n < 2 ^ 128 →
      GoodChars (midToChars n) ∧
      ∀ (sign : Sign) (v : Variant), sign ≠ Sign.Nil →
        TextZeroSafe (MidScaleInt.toLowercase ⟨sign, n⟩ v).data ∧
        TextZeroSafe (MidScaleInt.toUppercase ⟨sign, n⟩ v).data)
    ∧ (∀ n : Nat, 0 < n → n < 2 ^ 128 →
      GoodChars (longToChars n) ∧
      ∀ (sign : Sign) (v : Variant), sign ≠ Sign.Nil →
        TextZeroSafe (LongScaleInt.toLowercase ⟨sign, n⟩ v).data ∧
        TextZeroSafe (LongScaleInt.toUppercase ⟨sign, n⟩ v).data) := by
  refine ⟨?_, ?_, ?_, ?_⟩
  · intro n h0 hle
    have hlt : n < 10 ^ 15 := lt_of_le_of_lt hle (by norm_num [SHORT_MAX_ABS])
    refine ⟨shortToChars_good h0 hlt, ?_⟩
    intro sign v hsign
    exact ⟨textZeroSafe_render lowerMethod_zero (shortTrimmed_good h0 hlt) hsign,
      textZeroSafe_render upperMethod_zero (shortToChars_good h0 hlt) hsign⟩
  · intro n h0 hle
    have hlt : n < 10 ^ 40 := lt_of_lt_of_le hle (by norm_num)
    refine ⟨myriadToChars_good h0 hlt, ?_⟩
    intro sign v hsign
    exact ⟨textZeroSafe_render lowerMethod_zero (myriadTrimmed_good h0 hlt) hsign,
      textZeroSafe_render upperMethod_zero (myriadToChars_good h0 hlt) hsign⟩
  · intro n h0 hle
    have hlt : n < 10 ^ 40 := lt_of_lt_of_le hle (by norm_num)
    refine ⟨midToChars_good h0 hlt, ?_⟩
    intro sign v hsign
    exact ⟨textZeroSafe_render lowerMethod_zero (midTrimmed_good h0 hlt) hsign,
      textZeroSafe_render upperMethod_zero (midToChars_good h0 hlt) hsign⟩
  · intro n h0 hle
    have hlt : n < 10 ^ 48 := lt_of_lt_of_le hle (by norm_num)
    refine ⟨longToChars_good h0 hlt, ?_⟩
    intro sign v hsign
    exact ⟨textZeroSafe_render lowerMethod_zero (longTrimmed_good h0 hlt) hsign,
      textZeroSafe_render upperMethod_zero (longToChars_good h0 hlt) hsign⟩

/-- Witness for C10: the short scale at 10203 (whose sequence contains an
interior filler `Zero`) for a negative sign in the simplified variant. -/
theorem claim_C10_witness :
    GoodChars (shortToChars 10203) ∧
    TextZeroSafe (ShortScaleInt.toLowercase ⟨Sign.Neg, 10203⟩ Variant.Simplified).data :=
  ⟨(claim_C10.1 10203 (by omega) (by norm_num [SHORT_MAX_ABS])).1,
   ((claim_C10.1 10203 (by omega) (by norm_num [SHORT_MAX_ABS])).2
     Sign.Neg Variant.Simplified (by decide)).1⟩

end ChineseNumerals
